import Mathlib

/-!
rSPDE: the cgeneric model `inla_cgeneric_gpgraph_alpha2_model`.

A shallow embedding of `src/cgeneric_gpgraph_alpha2.c` and the properties of its
command protocol.

Conventions of the embedding.

* A call either returns to the caller (`Except.ok`) or ends in a `Fault`
  (`Except.error`): a failed `assert`, a read outside an array, a read through a
  NULL `theta`, or a read of a local that was never assigned.
* C `double` arithmetic, the libm functions `log` and `exp` and the constants `NAN`
  and `M_PI` are not defined by the repository; the embedding is generic in a carrier
  `D` that supplies them (`CDouble`).  `RealD` is the carrier of the real numbers
  extended by one not-a-number value (exact arithmetic); `RangeD` is the carrier of
  the real numbers with the range limits of a double (underflow to 0, overflow to an
  infinity, division by zero).
* The argument `theta` is NULL (`none`) or points to the two hyperparameters
  `theta[0]`, `theta[1]`.
* Array lengths are natural numbers; the allocation sizes `k + 2 * M` and `k + M` are
  taken to fit a C `int`.
-/

set_option linter.unusedVariables false

namespace GpGraphAlpha2

/-! ## Faults -/

/-- Ways in which a call ends without returning to its caller. -/
inductive Fault where
  /-- An `assert` failed: the process aborts. -/
  | assertion
  /-- A read or a write outside an array. -/
  | outOfBounds
  /-- A read through the NULL pointer. -/
  | nullDeref
  /-- A read of a local variable that was never assigned. -/
  | uninitialized
  deriving DecidableEq

/-- The C `assert`: continue when the condition holds, abort otherwise. -/
def assert (p : Prop) [Decidable p] : Except Fault Unit :=
  if p then Except.ok () else Except.error Fault.assertion

/-- Array read `xs[k]`. -/
def rd {α : Type} (xs : List α) (k : Nat) : Except Fault α :=
  match xs[k]? with
  | some a => Except.ok a
  | none => Except.error Fault.outOfBounds

/-- Array write `xs[k] = v`. -/
def wr {α : Type} (xs : List α) (k : Nat) (v : α) : Except Fault (List α) :=
  if k < xs.length then Except.ok (xs.set k v) else Except.error Fault.outOfBounds

/-- Read of a local variable; `none` is a variable that was declared and never assigned. -/
def readLocal {α : Type} (x : Option α) : Except Fault α :=
  match x with
  | some a => Except.ok a
  | none => Except.error Fault.uninitialized

/-- Read through a pointer that may be NULL. -/
def deref {α : Type} (p : Option α) : Except Fault α :=
  match p with
  | some a => Except.ok a
  | none => Except.error Fault.nullDeref

/-! ## C doubles -/

/-- The arithmetic the source uses on `double`: the operators `+ - * /`, unary minus,
decimal literals, the conversion from `int`, and from `math.h` the functions `log`,
`exp` and the constants `NAN`, `M_PI`. -/
class CDouble (D : Type) extends Add D, Sub D, Mul D, Div D, Neg D, OfScientific D,
    IntCast D where
  /-- The libm function `log`. -/
  log : D → D
  /-- The libm function `exp`. -/
  exp : D → D
  /-- The constant `NAN`. -/
  NAN : D
  /-- The constant `M_PI`. -/
  M_PI : D

export CDouble (log exp NAN M_PI)

/-- Modelled from the spec: the macro `SQR` of `cgeneric_defs.h` (absent from the
sources), the square that the spec's `Normal_logpdf` takes. -/
def SQR {D : Type} [CDouble D] (x : D) : D := x * x

/-- Modelled from the spec: the macro `Calloc` of `cgeneric_defs.h` (absent from the
sources), a fresh array of `n` doubles, all zero. -/
def Calloc (D : Type) [CDouble D] (n : Nat) : List D := List.replicate n (0.0 : D)

/-! ## C strings -/

/-- The libc `tolower` in the C locale, on character codes. -/
def tolower (c : Nat) : Nat := if 65 ≤ c ∧ c ≤ 90 then c + 32 else c

/-- The libc `strcasecmp`.  A string is the list of its characters; the position after
the last one reads as the terminating NUL, and a NUL inside the list ends the string. -/
def strcasecmp : List Char → List Char → Int
  | [], [] => 0
  | [], b :: _ => 0 - (tolower b.toNat : Int)
  | a :: _, [] => (tolower a.toNat : Int) - 0
  | a :: as, b :: bs =>
    if tolower a.toNat = tolower b.toNat then
      (if a.toNat = 0 then 0 else strcasecmp as bs)
    else (tolower a.toNat : Int) - (tolower b.toNat : Int)

/-! ## The data bundle -/

/-- Modelled from the spec: an integer record of the bundle (`inla_cgeneric_vec_tp`,
declared in the absent header): a name and a sequence of integers; `len` is the length
of the sequence. -/
structure IntVec where
  name : List Char
  ints : List Int

/-- Modelled from the spec: a double record of the bundle. -/
structure DoubleVec (D : Type) where
  name : List Char
  doubles : List D

/-- Modelled from the spec: a string record of the bundle. -/
structure CharVec where
  name : List Char
  chars : List Char

/-- Modelled from the spec: a sparse-matrix record in triplet format
(`inla_cgeneric_smat_tp`): row count, column count, declared number of non-zeros and
the three sequences of row indices, column indices and values. -/
structure inla_cgeneric_smat_tp (D : Type) where
  name : List Char
  nrow : Int
  ncol : Int
  n : Int
  i : List Int
  j : List Int
  x : List D

/-- Modelled from the spec: the named data bundle (`inla_cgeneric_data_tp`); `n_ints`
and `n_doubles` are the lengths of `ints` and `doubles`. -/
structure inla_cgeneric_data_tp (D : Type) where
  ints : List IntVec
  doubles : List (DoubleVec D)
  chars : List CharVec
  smats : List (inla_cgeneric_smat_tp D)

/-- Modelled from the spec: the commands (`inla_cgeneric_cmd_tp`): the eight named
ones, and `other` for an enum value that is none of them. -/
inductive inla_cgeneric_cmd_tp where
  | INLA_CGENERIC_VOID
  | INLA_CGENERIC_Q
  | INLA_CGENERIC_GRAPH
  | INLA_CGENERIC_MU
  | INLA_CGENERIC_INITIAL
  | INLA_CGENERIC_LOG_NORM_CONST
  | INLA_CGENERIC_LOG_PRIOR
  | INLA_CGENERIC_QUIT
  | other (code : Int)
  deriving DecidableEq

export inla_cgeneric_cmd_tp (INLA_CGENERIC_VOID INLA_CGENERIC_Q INLA_CGENERIC_GRAPH
  INLA_CGENERIC_MU INLA_CGENERIC_INITIAL INLA_CGENERIC_LOG_NORM_CONST
  INLA_CGENERIC_LOG_PRIOR INLA_CGENERIC_QUIT)

/-! ## Lines 17-97: the extractor -/

/-- The locals that lines 17-97 fill from the bundle. -/
structure Extracted (D : Type) where
  N : Int
  debug : Int
  graph_i : IntVec
  M : Nat
  graph_j : IntVec
  stationary_endpoints : IntVec
  upper_edges : IntVec
  lower_edges : IntVec
  lower_edges_len : Int
  upper_edges_len : Int
  Tc : inla_cgeneric_smat_tp D
  nrow_Tc : Int
  ncol_Tc : Int
  x_Tc : List D
  i_Tc : List Int
  j_Tc : List Int
  n_nonzero_Tc : Int
  El : DoubleVec D
  nE : Nat
  start_theta : D
  start_lsigma : D
  prior_theta_meanlog : D
  prior_theta_sdlog : D
  prior_sigma_meanlog : D
  prior_sigma_sdlog : D
  parameterization : List Char

/-- The pair `assert(!strcasecmp(data->ints[k]->name, nm))` and the read of
`data->ints[k]`. -/
def intRecord {D : Type} (data : inla_cgeneric_data_tp D) (k : Nat) (nm : String) :
    Except Fault IntVec := do
  let r ← rd data.ints k
  assert (strcasecmp r.name nm.toList = 0)
  Except.ok r

/-- The pair `assert(!strcasecmp(data->doubles[k]->name, nm))` and the read of
`data->doubles[k]`. -/
def doubleRecord {D : Type} (data : inla_cgeneric_data_tp D) (k : Nat) (nm : String) :
    Except Fault (DoubleVec D) := do
  let r ← rd data.doubles k
  assert (strcasecmp r.name nm.toList = 0)
  Except.ok r

/-- Lines 17-97 of the source: the checks of the bundle and the reads of its fields,
in the order of the source. -/
def extractData {D : Type} (data : inla_cgeneric_data_tp D) : Except Fault (Extracted D) := do
  assert (data.ints.length = 9)
  assert (data.doubles.length = 8)
  let r0 ← intRecord data 0 "n"
  let N ← rd r0.ints 0
  assert (N > 0)
  let r1 ← intRecord data 1 "debug"
  let debug ← rd r1.ints 0
  let debug := if debug = 1 then 1 else debug
  let graph_i ← intRecord data 2 "prec_graph_i"
  let M := graph_i.ints.length
  let graph_j ← intRecord data 3 "prec_graph_j"
  assert (M = graph_j.ints.length)
  let stationary_endpoints ← intRecord data 4 "stationary_endpoints"
  let upper_edges ← intRecord data 5 "upper_edges"
  let lower_edges ← intRecord data 6 "lower_edges"
  let r7 ← intRecord data 7 "upper_edges_len"
  let lower_edges_len ← rd r7.ints 0
  let r8 ← intRecord data 8 "upper_edges_len"
  let upper_edges_len ← rd r8.ints 0
  let Tc ← rd data.smats 0
  assert (strcasecmp Tc.name "Tc".toList = 0)
  let nrow_Tc := Tc.nrow
  let ncol_Tc := Tc.ncol
  let x_Tc := Tc.x
  let i_Tc := Tc.i
  let j_Tc := Tc.j
  let n_nonzero_Tc := Tc.n
  let El ← doubleRecord data 1 "El"
  let nE := El.doubles.length
  let r2 ← doubleRecord data 2 "start_theta"
  let start_theta ← rd r2.doubles 0
  let r3 ← doubleRecord data 3 "start_lsigma"
  let start_lsigma ← rd r3.doubles 0
  let r4 ← doubleRecord data 4 "prior_theta_meanlog"
  let prior_theta_meanlog ← rd r4.doubles 0
  let r5 ← doubleRecord data 5 "prior_theta_sdlog"
  let prior_theta_sdlog ← rd r5.doubles 0
  let r6 ← doubleRecord data 6 "prior_sigma_meanlog"
  let prior_sigma_meanlog ← rd r6.doubles 0
  let r7d ← doubleRecord data 7 "prior_sigma_sdlog"
  let prior_sigma_sdlog ← rd r7d.doubles 0
  let c2 ← rd data.chars 2
  assert (strcasecmp c2.name "parameterization".toList = 0)
  let parameterization := c2.chars
  Except.ok
    { N := N, debug := debug, graph_i := graph_i, M := M, graph_j := graph_j,
      stationary_endpoints := stationary_endpoints, upper_edges := upper_edges,
      lower_edges := lower_edges, lower_edges_len := lower_edges_len,
      upper_edges_len := upper_edges_len, Tc := Tc, nrow_Tc := nrow_Tc,
      ncol_Tc := ncol_Tc, x_Tc := x_Tc, i_Tc := i_Tc, j_Tc := j_Tc,
      n_nonzero_Tc := n_nonzero_Tc, El := El, nE := nE, start_theta := start_theta,
      start_lsigma := start_lsigma, prior_theta_meanlog := prior_theta_meanlog,
      prior_theta_sdlog := prior_theta_sdlog, prior_sigma_meanlog := prior_sigma_meanlog,
      prior_sigma_sdlog := prior_sigma_sdlog, parameterization := parameterization }

/-! ## Lines 99-115: the hyperparameter transform -/

/-- The five locals of line 9 after lines 99-115; `none` is a local that no statement
has assigned. -/
structure Hyper (D : Type) where
  lkappa : Option D
  lsigma : Option D
  kappa : Option D
  sigma : Option D
  tau : Option D

/-- Lines 99-115 of the source. -/
def transformTheta {D : Type} [CDouble D] (theta : Option (D × D))
    (parameterization : List Char) : Hyper D :=
  match theta with
  | some (theta0, theta1) =>
    let lkappa : D :=
      if strcasecmp parameterization "matern".toList = 0 then
        let lkappa : D := log 2.0 - theta1
        let lkappa : D := 0.5 * log 12.0 - theta1
        lkappa
      else theta1
    let lsigma : D := theta0
    let kappa : D := exp lkappa
    let sigma : D := exp lsigma
    let tau : D := 1.0 / sigma
    { lkappa := some lkappa, lsigma := some lsigma, kappa := some kappa,
      sigma := some sigma, tau := some tau }
  | none =>
    { lkappa := some NAN, lsigma := some NAN, kappa := some NAN, sigma := some NAN,
      tau := none }

/-! ## Lines 117-196: the command dispatcher -/

/-- The arguments of the call of `compute_Q_alpha2` on lines 147-149, in the order of
the call; the output pointer `&ret[k]` is the buffer that `storeKernel` fills. -/
structure KernelArgs (D : Type) where
  i_Tc : List Int
  j_Tc : List Int
  x_Tc : List D
  kappa : D
  tau : D
  nE : Int
  alpha : D
  nrow_Tc : Int
  ncol_Tc : Int
  n_nonzero_Tc : Int
  El : List D
  lower_edges : List Int
  upper_edges : List Int
  lower_edges_len : Int
  upper_edges_len : Int

/-- The precision-assembly kernel `compute_Q_alpha2`, which the sources do not define
and which is therefore a parameter of the model.  Following the interface of the spec
(it fills the output buffer and has no other effect on the caller), a kernel is, for
given arguments, the value it stores at each offset of its output pointer (`none`
where it stores nothing). -/
abbrev Kernel (D : Type) := KernelArgs D → Nat → Option D

/-- The buffer `buf`, whose first cell has offset `n`, after the stores `w`. -/
def storeKernel {D : Type} (w : Nat → Option D) : Nat → List D → List D
  | _, [] => []
  | n, b :: bs => (w n).getD b :: storeKernel w (n + 1) bs

/-- What a call that returns leaves behind: the returned pointer (`none` is NULL) and
the calls of the kernel it made, in order. -/
structure Outcome (D : Type) where
  ret : Option (List D)
  calls : List (KernelArgs D)

/-- The loop `for (i = i0; i < i0 + n; i++) ret[k++] = src[i];` of lines 130-135,
by recursion on the number `n` of iterations left. -/
def copyLoop {D : Type} [CDouble D] (src : List Int) :
    Nat → Nat → List D → Nat → Except Fault (List D × Nat)
  | 0, _, ret, k => Except.ok (ret, k)
  | n + 1, i, ret, k => do
    let v ← rd src i
    let ret ← wr ret k ((v : Int) : D)
    copyLoop src n (i + 1) ret (k + 1)

/-- The argument list of lines 147-149, `compute_Q_alpha2(&i_Tc, &j_Tc, &x_Tc, kappa,
tau, nE, 0.5, nrow_Tc, ncol_Tc, n_nonzero_Tc, El->doubles, &ret[k], lower_edges->ints,
upper_edges->ints, lower_edges_len, upper_edges_len)`, from the locals. -/
def qArgs {D : Type} [CDouble D] (e : Extracted D) (kappa tau : D) : KernelArgs D :=
  { i_Tc := e.i_Tc, j_Tc := e.j_Tc, x_Tc := e.x_Tc, kappa := kappa, tau := tau,
    nE := (e.nE : Int), alpha := 0.5, nrow_Tc := e.nrow_Tc, ncol_Tc := e.ncol_Tc,
    n_nonzero_Tc := e.n_nonzero_Tc, El := e.El.doubles,
    lower_edges := e.lower_edges.ints, upper_edges := e.upper_edges.ints,
    lower_edges_len := e.lower_edges_len, upper_edges_len := e.upper_edges_len }

/-- Lines 117-196 of the source: the `switch` on the command and the final `return`. -/
def dispatch {D : Type} [CDouble D] (compute_Q_alpha2 : Kernel D)
    (cmd : inla_cgeneric_cmd_tp) (theta : Option (D × D)) (e : Extracted D)
    (h : Hyper D) : Except Fault (Outcome D) :=
  match cmd with
  | .INLA_CGENERIC_VOID => do
    assert (¬ (cmd = .INLA_CGENERIC_VOID))
    Except.ok { ret := none, calls := [] }
  | .INLA_CGENERIC_GRAPH => do
    let k := 2
    let ret := Calloc D (k + 2 * e.M)
    let ret ← wr ret 0 ((e.N : Int) : D)
    let ret ← wr ret 1 (((e.M : Nat) : Int) : D)
    let (ret, k) ← copyLoop e.graph_i.ints e.M 0 ret k
    let (ret, k) ← copyLoop e.graph_j.ints e.M 0 ret k
    Except.ok { ret := some ret, calls := [] }
  | .INLA_CGENERIC_Q => do
    let k := 2
    let ret := Calloc D (k + e.M)
    let ret ← wr ret 0 ((-1 : Int) : D)
    let ret ← wr ret 1 (((e.M : Nat) : Int) : D)
    let kappa ← readLocal h.kappa
    let tau ← readLocal h.tau
    let args : KernelArgs D := qArgs e kappa tau
    let ret := ret.take k ++ storeKernel (compute_Q_alpha2 args) 0 (ret.drop k)
    Except.ok { ret := some ret, calls := [args] }
  | .INLA_CGENERIC_MU => do
    let ret := Calloc D 1
    let ret ← wr ret 0 (0.0 : D)
    Except.ok { ret := some ret, calls := [] }
  | .INLA_CGENERIC_INITIAL => do
    let ret := Calloc D 3
    let ret ← wr ret 0 ((2 : Int) : D)
    let ret ← wr ret 1 e.start_lsigma
    let ret ← wr ret 2 e.start_theta
    Except.ok { ret := some ret, calls := [] }
  | .INLA_CGENERIC_LOG_NORM_CONST =>
    Except.ok { ret := none, calls := [] }
  | .INLA_CGENERIC_LOG_PRIOR => do
    let ret := Calloc D 1
    let ret ← wr ret 0 (0.0 : D)
    let th ← deref theta
    let theta1 := th.2
    let r0 ← rd ret 0
    let ret ← wr ret 0
      (r0 + ((-0.5) * SQR (theta1 - e.prior_theta_meanlog) / (SQR e.prior_theta_sdlog)
        - log e.prior_theta_sdlog - 0.5 * log (2.0 * M_PI)))
    let lsigma ← readLocal h.lsigma
    let r0 ← rd ret 0
    let ret ← wr ret 0
      (r0 + ((-0.5) * SQR (lsigma - e.prior_sigma_meanlog) / (SQR e.prior_sigma_sdlog)
        - log e.prior_sigma_sdlog - 0.5 * log (2.0 * M_PI)))
    Except.ok { ret := some ret, calls := [] }
  | .INLA_CGENERIC_QUIT =>
    Except.ok { ret := none, calls := [] }
  | .other _ =>
    Except.ok { ret := none, calls := [] }

/-- The entry point `inla_cgeneric_gpgraph_alpha2_model` of the source; the kernel
`compute_Q_alpha2` that it calls is a parameter. -/
def inla_cgeneric_gpgraph_alpha2_model {D : Type} [CDouble D] (compute_Q_alpha2 : Kernel D)
    (cmd : inla_cgeneric_cmd_tp) (theta : Option (D × D))
    (data : inla_cgeneric_data_tp D) : Except Fault (Outcome D) := do
  let e ← extractData data
  let h := transformTheta theta e.parameterization
  dispatch compute_Q_alpha2 cmd theta e h

/-! ## The real numbers with a not-a-number value -/

/-- A real number, or the one value `nan` that stands for every result that is not a
real number.  This carrier is exact real arithmetic: it has no rounding, no underflow
and no overflow, and serves the statements made "over the reals"; the range limits of
a double are the subject of the carrier `RangeD`. -/
inductive RealD where
  | num (r : ℝ)
  | nan

namespace RealD

/-- Lift of a total binary operation: not-a-number as soon as an operand is. -/
def lift₂ (f : ℝ → ℝ → ℝ) : RealD → RealD → RealD
  | num a, num b => num (f a b)
  | _, _ => nan

/-- Division; a division by zero has no real result. -/
noncomputable def divD : RealD → RealD → RealD
  | num a, num b => if b = 0 then nan else num (a / b)
  | _, _ => nan

/-- The logarithm; it has a real result on the positive reals only. -/
noncomputable def logD : RealD → RealD
  | num a => if 0 < a then num (Real.log a) else nan
  | nan => nan

/-- The exponential over the reals: never zero and never infinite, unlike `exp` on
doubles, which underflows and overflows (see `RangeD.expR`). -/
noncomputable def expD : RealD → RealD
  | num a => num (Real.exp a)
  | nan => nan

/-- Unary minus. -/
def negD : RealD → RealD
  | num a => num (-a)
  | nan => nan

noncomputable instance instCDouble : CDouble RealD where
  add := lift₂ (fun a b => a + b)
  sub := lift₂ (fun a b => a - b)
  mul := lift₂ (fun a b => a * b)
  div := divD
  neg := negD
  ofScientific m s e := num (OfScientific.ofScientific m s e)
  intCast n := num (n : ℝ)
  log := logD
  exp := expD
  NAN := nan
  M_PI := num Real.pi

end RealD

/-! ## What the extractor has established -/

/-- What lines 17-97 have checked and read when they complete with the locals `e`:
each conjunct is one `assert` or one read of the source. -/
structure Accepted {D : Type} (d : inla_cgeneric_data_tp D) (e : Extracted D) : Prop where
  n_ints : d.ints.length = 9
  n_doubles : d.doubles.length = 8
  rec_n : ∃ r, d.ints[0]? = some r ∧ strcasecmp r.name "n".toList = 0 ∧
    r.ints[0]? = some e.N
  N_pos : 0 < e.N
  rec_debug : ∃ r, d.ints[1]? = some r ∧ strcasecmp r.name "debug".toList = 0 ∧
    r.ints[0]? = some e.debug
  rec_graph_i : d.ints[2]? = some e.graph_i
  name_graph_i : strcasecmp e.graph_i.name "prec_graph_i".toList = 0
  M_graph_i : e.M = e.graph_i.ints.length
  rec_graph_j : d.ints[3]? = some e.graph_j
  name_graph_j : strcasecmp e.graph_j.name "prec_graph_j".toList = 0
  M_graph_j : e.M = e.graph_j.ints.length
  rec_stationary : d.ints[4]? = some e.stationary_endpoints
  name_stationary : strcasecmp e.stationary_endpoints.name "stationary_endpoints".toList = 0
  rec_upper : d.ints[5]? = some e.upper_edges
  name_upper : strcasecmp e.upper_edges.name "upper_edges".toList = 0
  rec_lower : d.ints[6]? = some e.lower_edges
  name_lower : strcasecmp e.lower_edges.name "lower_edges".toList = 0
  rec_seven : ∃ r, d.ints[7]? = some r ∧ strcasecmp r.name "upper_edges_len".toList = 0 ∧
    r.ints[0]? = some e.lower_edges_len
  rec_eight : ∃ r, d.ints[8]? = some r ∧ strcasecmp r.name "upper_edges_len".toList = 0 ∧
    r.ints[0]? = some e.upper_edges_len
  rec_Tc : d.smats[0]? = some e.Tc
  name_Tc : strcasecmp e.Tc.name "Tc".toList = 0
  fields_Tc : e.nrow_Tc = e.Tc.nrow ∧ e.ncol_Tc = e.Tc.ncol ∧ e.x_Tc = e.Tc.x ∧
    e.i_Tc = e.Tc.i ∧ e.j_Tc = e.Tc.j ∧ e.n_nonzero_Tc = e.Tc.n
  rec_El : d.doubles[1]? = some e.El
  name_El : strcasecmp e.El.name "El".toList = 0
  nE_El : e.nE = e.El.doubles.length
  rec_start_theta : ∃ r, d.doubles[2]? = some r ∧
    strcasecmp r.name "start_theta".toList = 0 ∧ r.doubles[0]? = some e.start_theta
  rec_start_lsigma : ∃ r, d.doubles[3]? = some r ∧
    strcasecmp r.name "start_lsigma".toList = 0 ∧ r.doubles[0]? = some e.start_lsigma
  rec_theta_meanlog : ∃ r, d.doubles[4]? = some r ∧
    strcasecmp r.name "prior_theta_meanlog".toList = 0 ∧
    r.doubles[0]? = some e.prior_theta_meanlog
  rec_theta_sdlog : ∃ r, d.doubles[5]? = some r ∧
    strcasecmp r.name "prior_theta_sdlog".toList = 0 ∧
    r.doubles[0]? = some e.prior_theta_sdlog
  rec_sigma_meanlog : ∃ r, d.doubles[6]? = some r ∧
    strcasecmp r.name "prior_sigma_meanlog".toList = 0 ∧
    r.doubles[0]? = some e.prior_sigma_meanlog
  rec_sigma_sdlog : ∃ r, d.doubles[7]? = some r ∧
    strcasecmp r.name "prior_sigma_sdlog".toList = 0 ∧
    r.doubles[0]? = some e.prior_sigma_sdlog
  rec_parameterization : ∃ c, d.chars[2]? = some c ∧
    strcasecmp c.name "parameterization".toList = 0 ∧ e.parameterization = c.chars

/-! ## Notions of the specification -/

/-- The characters of a C string as the comparison sees them: the character codes up
to the first NUL. -/
def cstr (s : List Char) : List Nat := (s.map Char.toNat).takeWhile (fun c => c != 0)

/-- Two names are equal under case-insensitive comparison, in the words of the spec:
they are the same string once every upper-case letter is lowered. -/
def sameNameNoCase (a b : List Char) : Prop := (cstr a).map tolower = (cstr b).map tolower

instance instDecidableSameNameNoCase (a b : List Char) : Decidable (sameNameNoCase a b) := by
  unfold sameNameNoCase; infer_instance

/-- The names the spec expects of the integer records, by position. -/
def intNames : List (Nat × String) :=
  [(0, "n"), (1, "debug"), (2, "prec_graph_i"), (3, "prec_graph_j"),
   (4, "stationary_endpoints"), (5, "upper_edges"), (6, "lower_edges"),
   (7, "upper_edges_len"), (8, "upper_edges_len")]

/-- The names the spec expects of the double records, by position; the record at
position 0 is not checked. -/
def doubleNames : List (Nat × String) :=
  [(1, "El"), (2, "start_theta"), (3, "start_lsigma"), (4, "prior_theta_meanlog"),
   (5, "prior_theta_sdlog"), (6, "prior_sigma_meanlog"), (7, "prior_sigma_sdlog")]

/-- A violation of the schema, in the words of the spec: a wrong count of integer or
double records, or a checked record whose name differs, case-insensitively, from the
name expected at its position. -/
def SchemaViolation {D : Type} (d : inla_cgeneric_data_tp D) : Prop :=
  d.ints.length ≠ 9 ∨ d.doubles.length ≠ 8 ∨
  (∃ k nm r, (k, nm) ∈ intNames ∧ d.ints[k]? = some r ∧ ¬ sameNameNoCase r.name nm.toList) ∨
  (∃ r, d.smats[0]? = some r ∧ ¬ sameNameNoCase r.name "Tc".toList) ∨
  (∃ k nm r, (k, nm) ∈ doubleNames ∧ d.doubles[k]? = some r ∧
    ¬ sameNameNoCase r.name nm.toList) ∨
  (∃ r, d.chars[2]? = some r ∧ ¬ sameNameNoCase r.name "parameterization".toList)

/-- The spec's `Normal_logpdf(x; m, s) = -0.5*((x-m)/s)^2 - log(s) - 0.5*log(2*pi)`, over
the reals. -/
noncomputable def Normal_logpdf (x m s : ℝ) : ℝ :=
  -0.5 * ((x - m) / s) ^ 2 - Real.log s - 0.5 * Real.log (2 * Real.pi)

/-- The spec's `Normal_logpdf` on `RealD`: its real value where the formula has one,
that is for real arguments with `0 < s`, and not-a-number elsewhere. -/
noncomputable def Normal_logpdfD : RealD → RealD → RealD → RealD
  | RealD.num x, RealD.num m, RealD.num s =>
    if 0 < s then RealD.num (Normal_logpdf x m s) else RealD.nan
  | _, _, _ => RealD.nan

/-! ## A sample bundle -/

/-- An integer record from a name and its values. -/
def mkInts (nm : String) (v : List Int) : IntVec := { name := nm.toList, ints := v }

/-- A double record from a name and its values. -/
def mkDoubles {D : Type} (nm : String) (v : List D) : DoubleVec D :=
  { name := nm.toList, doubles := v }

/-- A sparse matrix in triplet format, 2 x 4 with two non-zeros. -/
def sampleTc (D : Type) [CDouble D] : inla_cgeneric_smat_tp D :=
  { name := "Tc".toList, nrow := 2, ncol := 4, n := 2, i := [0, 1], j := [1, 2],
    x := [1.0, -1.0] }

/-- A bundle that the extractor accepts: a 2 x 2 precision matrix with the three
entries (0,0), (0,1), (1,1), one edge of length 1, both priors standard normal, start
values 0; the string `p` is the parameterization. -/
def sampleBundle (D : Type) [CDouble D] (p : String) : inla_cgeneric_data_tp D :=
  { ints := [mkInts "n" [2], mkInts "debug" [0], mkInts "prec_graph_i" [0, 0, 1],
      mkInts "prec_graph_j" [0, 1, 1], mkInts "stationary_endpoints" [0],
      mkInts "upper_edges" [1], mkInts "lower_edges" [0], mkInts "upper_edges_len" [1],
      mkInts "upper_edges_len" [1]],
    doubles := [mkDoubles "unused" [], mkDoubles "El" [1.0], mkDoubles "start_theta" [0.0],
      mkDoubles "start_lsigma" [0.0], mkDoubles "prior_theta_meanlog" [0.0],
      mkDoubles "prior_theta_sdlog" [1.0], mkDoubles "prior_sigma_meanlog" [0.0],
      mkDoubles "prior_sigma_sdlog" [1.0]],
    chars := [{ name := "model".toList, chars := "gpgraph".toList },
      { name := "shlib".toList, chars := "rSPDE".toList },
      { name := "parameterization".toList, chars := p.toList }],
    smats := [sampleTc D] }

/-- What the extractor reads from `sampleBundle`. -/
def sampleExtracted (D : Type) [CDouble D] (p : String) : Extracted D :=
  { N := 2, debug := 0, graph_i := mkInts "prec_graph_i" [0, 0, 1], M := 3,
    graph_j := mkInts "prec_graph_j" [0, 1, 1],
    stationary_endpoints := mkInts "stationary_endpoints" [0],
    upper_edges := mkInts "upper_edges" [1], lower_edges := mkInts "lower_edges" [0],
    lower_edges_len := 1, upper_edges_len := 1,
    Tc := sampleTc D,
    nrow_Tc := 2, ncol_Tc := 4, x_Tc := [1.0, -1.0], i_Tc := [0, 1], j_Tc := [1, 2],
    n_nonzero_Tc := 2, El := mkDoubles "El" [1.0], nE := 1, start_theta := 0.0,
    start_lsigma := 0.0, prior_theta_meanlog := 0.0, prior_theta_sdlog := 1.0,
    prior_sigma_meanlog := 0.0, prior_sigma_sdlog := 1.0, parameterization := p.toList }

/-- The sample bundle with the name of its first integer record replaced by `nm`. -/
def renamedFirst (D : Type) [CDouble D] (nm : String) : inla_cgeneric_data_tp D :=
  { sampleBundle D "spde" with
    ints := mkInts nm [2] :: (sampleBundle D "spde").ints.drop 1 }

/-- A kernel that stores `v` at every offset. -/
def constKernel {D : Type} (v : D) : Kernel D := fun _ _ => some v

/-- The sample bundle with its integer record at position `k` replaced by `r`. -/
def withIntRecord (D : Type) [CDouble D] (k : Nat) (r : IntVec) : inla_cgeneric_data_tp D :=
  { sampleBundle D "spde" with ints := (sampleBundle D "spde").ints.set k r }

/-! ## The real numbers with the range limits of a double -/

/-- A `double` with its range limits: a real number, an infinity (`inf true` is
`-inf`, `inf false` is `+inf`) or not-a-number.  Results that leave the range of a
double become 0 or an infinity as round-to-nearest makes them; rounding within the
range is not modelled, and zero carries no sign (it is `+0`). -/
inductive RangeD where
  | num (r : ℝ)
  | inf (negative : Bool)
  | nan

namespace RangeD

/-- Half the least positive double, `2^-1075`: a result of this size or less rounds
to 0. -/
noncomputable def underflowBound : ℝ := 1 / 2 ^ 1075

/-- The least size that rounds to an infinity, `2^1024 - 2^970`, half an ulp above the
largest double. -/
noncomputable def overflowBound : ℝ := 2 ^ 1024 - 2 ^ 970

/-- A real result of an addition or subtraction as a double: an infinity when it is
too large. -/
noncomputable def sat (r : ℝ) : RangeD :=
  if overflowBound ≤ |r| then inf (decide (r < 0)) else num r

/-- A real result of a multiplication, a division or `exp` as a double: 0 when it is
too small, an infinity when it is too large. -/
noncomputable def rnd (r : ℝ) : RangeD :=
  if |r| ≤ underflowBound then num 0 else sat r

/-- Unary minus. -/
def negR : RangeD → RangeD
  | num a => num (-a)
  | inf s => inf (!s)
  | nan => nan

/-- Addition; infinities of opposite sign have no sum. -/
noncomputable def addR : RangeD → RangeD → RangeD
  | num a, num b => sat (a + b)
  | num _, inf s => inf s
  | inf s, num _ => inf s
  | inf s, inf t => if s = t then inf s else nan
  | _, _ => nan

/-- Subtraction. -/
noncomputable def subR (a b : RangeD) : RangeD := addR a (negR b)

/-- Multiplication; zero times an infinity has no product. -/
noncomputable def mulR : RangeD → RangeD → RangeD
  | num a, num b => rnd (a * b)
  | num a, inf s => if a = 0 then nan else inf (xor s (decide (a < 0)))
  | inf s, num a => if a = 0 then nan else inf (xor s (decide (a < 0)))
  | inf s, inf t => inf (xor s t)
  | _, _ => nan

/-- Division; a non-zero number divided by zero is an infinity, zero by zero and an
infinity by an infinity are not-a-number. -/
noncomputable def divR : RangeD → RangeD → RangeD
  | num a, num b =>
    if b = 0 then (if a = 0 then nan else inf (decide (a < 0))) else rnd (a / b)
  | num _, inf _ => num 0
  | inf s, num b => inf (xor s (decide (b < 0)))
  | inf _, inf _ => nan
  | _, _ => nan

/-- The logarithm: `-inf` at zero, not-a-number on the negative numbers. -/
noncomputable def logR : RangeD → RangeD
  | num a => if 0 < a then num (Real.log a) else if a = 0 then inf true else nan
  | inf false => inf false
  | inf true => nan
  | nan => nan

/-- The exponential: it underflows to 0 and overflows to `+inf`. -/
noncomputable def expR : RangeD → RangeD
  | num a => rnd (Real.exp a)
  | inf false => inf false
  | inf true => num 0
  | nan => nan

noncomputable instance instCDoubleRange : CDouble RangeD where
  add := addR
  sub := subR
  mul := mulR
  div := divR
  neg := negR
  ofScientific m s e := num (OfScientific.ofScientific m s e)
  intCast n := num (n : ℝ)
  log := logR
  exp := expR
  NAN := nan
  M_PI := num Real.pi

end RangeD

/-! ## Lemmas on the building blocks -/

theorem assert_bind_ok {β : Type} (p : Prop) [Decidable p] (f : Unit → Except Fault β) (b : β) :
    (assert p >>= f) = Except.ok b ↔ p ∧ f () = Except.ok b := by
  unfold assert
  by_cases hp : p <;> simp [hp, bind, Except.bind]

/-- A sequence that starts with an array read completes exactly when the cell exists
and the rest completes on its value. -/
theorem rd_bind_ok {α β : Type} (xs : List α) (k : Nat) (f : α → Except Fault β) (b : β) :
    (rd xs k >>= f) = Except.ok b ↔ ∃ a, xs[k]? = some a ∧ f a = Except.ok b := by
  unfold rd
  cases h : xs[k]? <;> simp [bind, Except.bind]

/-- A read of an existing cell returns its value. -/
theorem rd_of_getElem? {α : Type} {xs : List α} {k : Nat} {a : α} (h : xs[k]? = some a) :
    rd xs k = Except.ok a := by
  simp [rd, h]

/-- A write inside the array succeeds. -/
theorem wr_of_lt {α : Type} {xs : List α} {k : Nat} (v : α) (h : k < xs.length) :
    wr xs k v = Except.ok (xs.set k v) := by
  simp [wr, h]

/-- An allocation of at least two cells starts with two zeros. -/
theorem calloc_two_add (D : Type) [CDouble D] (n : Nat) :
    Calloc D (2 + n) = (0.0 : D) :: (0.0 : D) :: List.replicate n (0.0 : D) := by
  simp [Calloc, Nat.add_comm 2 n, List.replicate_succ]

/-- The copy loop replaces the `n` cells that start at `k` by the `n` values of `src`
that start at `i`, and leaves `k` advanced by `n`. -/
theorem copyLoop_append {D : Type} [CDouble D] (src : List Int) :
    ∀ (n i k : Nat) (pre mid post : List D), pre.length = k → mid.length = n →
      i + n ≤ src.length →
      copyLoop src n i (pre ++ mid ++ post) k =
        Except.ok
          (pre ++ ((src.drop i).take n).map (fun v => ((v : Int) : D)) ++ post, k + n) := by
  intro n
  induction n with
  | zero =>
    intro i k pre mid post hk hmid _
    have : mid = [] := List.length_eq_zero.mp hmid
    subst this
    simp [copyLoop]
  | succ n ih =>
    intro i k pre mid post hk hmid hsrc
    cases mid with
    | nil => simp at hmid
    | cons m mid =>
      have hi : i < src.length := by omega
      have hrd : rd src i = Except.ok src[i] := rd_of_getElem? (List.getElem?_eq_getElem hi)
      have hlen : k < (pre ++ m :: mid ++ post).length := by
        simp only [List.length_append, List.length_cons]; omega
      have hset : (pre ++ m :: mid ++ post).set k ((src[i] : Int) : D) =
          (pre ++ [((src[i] : Int) : D)]) ++ mid ++ post := by
        subst hk
        simp [List.append_assoc]
      have hmid2 : mid.length = n := by simpa using hmid
      have hrec := ih (i + 1) (k + 1) (pre ++ [((src[i] : Int) : D)]) mid post
        (by simp [hk]) hmid2 (by omega)
      have hdrop : List.drop i src = src[i] :: List.drop (i + 1) src :=
        List.drop_eq_getElem_cons hi
      simp only [copyLoop, bind, Except.bind, hrd, wr_of_lt _ hlen, hset, hrec, hdrop,
        List.take_succ_cons, List.map_cons]
      simp [List.append_assoc, Nat.add_assoc, Nat.add_comm 1 n]

/-- The stores of the kernel keep the size of the buffer. -/
theorem storeKernel_length {D : Type} (w : Nat → Option D) :
    ∀ (buf : List D) (n : Nat), (storeKernel w n buf).length = buf.length := by
  intro buf
  induction buf with
  | nil => intro n; simp [storeKernel]
  | cons b bs ih => intro n; simp [storeKernel, ih]

/-- The cell at offset `t` of the buffer after the stores of the kernel. -/
theorem storeKernel_getElem? {D : Type} (w : Nat → Option D) :
    ∀ (buf : List D) (n t : Nat),
      (storeKernel w n buf)[t]? = (buf[t]?).map (fun b => (w (n + t)).getD b) := by
  intro buf
  induction buf with
  | nil => intro n t; simp [storeKernel]
  | cons b bs ih =>
    intro n t
    cases t with
    | zero => simp [storeKernel]
    | succ t => simp [storeKernel, ih, Nat.add_assoc, Nat.add_comm 1 t]

/-- On a bundle that the extractor accepts the entry point is the dispatcher on the
extracted locals and the transformed `theta`. -/
theorem model_of_extract {D : Type} [CDouble D] (kernel : Kernel D) (cmd : inla_cgeneric_cmd_tp)
    (theta : Option (D × D)) {d : inla_cgeneric_data_tp D} {e : Extracted D}
    (hv : extractData d = Except.ok e) :
    inla_cgeneric_gpgraph_alpha2_model kernel cmd theta d =
      dispatch kernel cmd theta e (transformTheta theta e.parameterization) := by
  simp [inla_cgeneric_gpgraph_alpha2_model, hv, bind, Except.bind]

/-- The GRAPH branch in closed form. -/
theorem dispatch_graph {D : Type} [CDouble D] (kernel : Kernel D) (theta : Option (D × D))
    (e : Extracted D) (h : Hyper D) (hi : e.graph_i.ints.length = e.M)
    (hj : e.graph_j.ints.length = e.M) :
    dispatch kernel INLA_CGENERIC_GRAPH theta e h =
      Except.ok { ret := some (((e.N : Int) : D) :: (((e.M : Nat) : Int) : D) ::
          (e.graph_i.ints.map (fun v => ((v : Int) : D)) ++
            e.graph_j.ints.map (fun v => ((v : Int) : D)))), calls := [] } := by
  have h1 := copyLoop_append (D := D) e.graph_i.ints e.M 0 2
    [((e.N : Int) : D), (((e.M : Nat) : Int) : D)] (List.replicate e.M (0.0 : D))
    (List.replicate e.M (0.0 : D)) rfl (by simp) (by omega)
  have h2 := copyLoop_append (D := D) e.graph_j.ints e.M 0 (2 + e.M)
    ([((e.N : Int) : D), (((e.M : Nat) : Int) : D)] ++
      e.graph_i.ints.map (fun v => ((v : Int) : D)))
    (List.replicate e.M (0.0 : D)) [] (by simp [hi]; omega) (by simp) (by omega)
  have hsplit : List.replicate (2 * e.M) (0.0 : D) =
      List.replicate e.M (0.0 : D) ++ List.replicate e.M (0.0 : D) := by
    rw [Nat.two_mul, List.replicate_add]
  have ht1 : List.take e.M e.graph_i.ints = e.graph_i.ints := by
    rw [← hi]; exact List.take_length _
  have ht2 : List.take e.M e.graph_j.ints = e.graph_j.ints := by
    rw [← hj]; exact List.take_length _
  simp only [List.drop_zero, ht1, ht2, List.append_nil] at h1 h2
  simp only [dispatch, calloc_two_add, bind, Except.bind, wr, List.length_cons,
    Nat.zero_lt_succ, if_true, List.set_cons_zero, List.set_cons_succ, Nat.succ_lt_succ_iff,
    hsplit]
  simp only [List.cons_append, List.nil_append, List.append_assoc] at h1 h2
  rw [h1]
  simp only []
  rw [h2]

/-- A sequence that starts with the check and read of an integer record. -/
theorem intRecord_bind_ok {D β : Type} (d : inla_cgeneric_data_tp D) (k : Nat) (nm : String)
    (f : IntVec → Except Fault β) (b : β) :
    (intRecord d k nm >>= f) = Except.ok b ↔
      ∃ r, d.ints[k]? = some r ∧ strcasecmp r.name nm.toList = 0 ∧ f r = Except.ok b := by
  unfold intRecord
  simp only [bind_assoc, rd_bind_ok, assert_bind_ok]
  simp [bind, Except.bind]

/-- A sequence that starts with the check and read of a double record. -/
theorem doubleRecord_bind_ok {D β : Type} (d : inla_cgeneric_data_tp D) (k : Nat) (nm : String)
    (f : DoubleVec D → Except Fault β) (b : β) :
    (doubleRecord d k nm >>= f) = Except.ok b ↔
      ∃ r, d.doubles[k]? = some r ∧ strcasecmp r.name nm.toList = 0 ∧ f r = Except.ok b := by
  unfold doubleRecord
  simp only [bind_assoc, rd_bind_ok, assert_bind_ok]
  simp [bind, Except.bind]

/-- When the extractor completes, every check of lines 17-97 held and the locals hold
the values read. -/
theorem extractData_ok {D : Type} {d : inla_cgeneric_data_tp D} {e : Extracted D}
    (h : extractData d = Except.ok e) : Accepted d e := by
  unfold extractData at h
  simp only [assert_bind_ok, rd_bind_ok, intRecord_bind_ok, doubleRecord_bind_ok,
    Except.ok.injEq] at h
  obtain ⟨h9, h8, r0, hr0, hn0, N, hN, hpos, h⟩ := h
  obtain ⟨r1, hr1, hn1, dbg, hdbg, gi, hgi, hngi, gj, hgj, hngj, hM, h⟩ := h
  obtain ⟨se, hse, hnse, ue, hue, hnue, le, hle, hnle, h⟩ := h
  obtain ⟨r7, hr7, hn7, ll, hll, r8, hr8, hn8, ul, hul, h⟩ := h
  obtain ⟨tc, htc, hntc, el, hel, hnel, d2, hd2, hn2, v2, hv2, h⟩ := h
  obtain ⟨d3, hd3, hn3, v3, hv3, d4, hd4, hn4, v4, hv4, h⟩ := h
  obtain ⟨d5, hd5, hn5, v5, hv5, d6, hd6, hn6, v6, hv6, h⟩ := h
  obtain ⟨d7, hd7, hn7d, v7, hv7, c2, hc2, hnc2, h⟩ := h
  subst h
  have hdebug : (if dbg = 1 then 1 else dbg) = dbg := by
    split
    · rename_i h1; exact h1.symm
    · rfl
  exact
    { n_ints := h9, n_doubles := h8, rec_n := ⟨r0, hr0, hn0, hN⟩, N_pos := hpos,
      rec_debug := ⟨r1, hr1, hn1, by simp only [hdebug, hdbg]⟩,
      rec_graph_i := hgi, name_graph_i := hngi, M_graph_i := rfl,
      rec_graph_j := hgj, name_graph_j := hngj, M_graph_j := hM,
      rec_stationary := hse, name_stationary := hnse, rec_upper := hue, name_upper := hnue,
      rec_lower := hle, name_lower := hnle, rec_seven := ⟨r7, hr7, hn7, hll⟩,
      rec_eight := ⟨r8, hr8, hn8, hul⟩, rec_Tc := htc, name_Tc := hntc,
      fields_Tc := ⟨rfl, rfl, rfl, rfl, rfl, rfl⟩, rec_El := hel, name_El := hnel,
      nE_El := rfl, rec_start_theta := ⟨d2, hd2, hn2, hv2⟩,
      rec_start_lsigma := ⟨d3, hd3, hn3, hv3⟩, rec_theta_meanlog := ⟨d4, hd4, hn4, hv4⟩,
      rec_theta_sdlog := ⟨d5, hd5, hn5, hv5⟩, rec_sigma_meanlog := ⟨d6, hd6, hn6, hv6⟩,
      rec_sigma_sdlog := ⟨d7, hd7, hn7d, hv7⟩, rec_parameterization := ⟨c2, hc2, hnc2, rfl⟩ }

/-- Only NUL lowers to NUL. -/
theorem tolower_eq_zero (c : Nat) : tolower c = 0 ↔ c = 0 := by
  unfold tolower
  split <;> omega

/-- The empty string. -/
theorem cstr_nil : cstr [] = [] := rfl

/-- A string ends at its first NUL. -/
theorem cstr_cons (a : Char) (as : List Char) :
    cstr (a :: as) = if a.toNat = 0 then [] else a.toNat :: cstr as := by
  by_cases h : a.toNat = 0 <;> simp [cstr, List.takeWhile_cons, h]

/-- The `strcasecmp` of the source returns 0 exactly on names that are equal under
case-insensitive comparison. -/
theorem strcasecmp_eq_zero_iff : ∀ a b : List Char, strcasecmp a b = 0 ↔ sameNameNoCase a b := by
  intro a
  induction a with
  | nil =>
    intro b
    cases b with
    | nil => simp [strcasecmp, sameNameNoCase]
    | cons b bs =>
      have := tolower_eq_zero b.toNat
      by_cases hb : b.toNat = 0
      · simp [strcasecmp, sameNameNoCase, cstr_cons, cstr_nil, hb, tolower]
      · have h2 : tolower b.toNat ≠ 0 := fun h => hb (this.mp h)
        simp only [strcasecmp, sameNameNoCase, cstr_cons, cstr_nil, hb, if_false, List.map_nil,
          List.map_cons]
        constructor
        · intro h; omega
        · intro h; simp at h
  | cons a as ih =>
    intro b
    cases b with
    | nil =>
      have := tolower_eq_zero a.toNat
      by_cases ha : a.toNat = 0
      · simp [strcasecmp, sameNameNoCase, cstr_cons, cstr_nil, ha, tolower]
      · have h2 : tolower a.toNat ≠ 0 := fun h => ha (this.mp h)
        simp only [strcasecmp, sameNameNoCase, cstr_cons, cstr_nil, ha, if_false, List.map_nil,
          List.map_cons]
        constructor
        · intro h; omega
        · intro h; simp at h
    | cons b bs =>
      have hza := tolower_eq_zero a.toNat
      have hzb := tolower_eq_zero b.toNat
      have ih' := ih bs
      unfold sameNameNoCase at ih' ⊢
      by_cases hab : tolower a.toNat = tolower b.toNat
      · by_cases ha : a.toNat = 0
        · have hb : b.toNat = 0 := by
            apply hzb.mp; rw [← hab]; exact hza.mpr ha
          simp [strcasecmp, cstr_cons, hab, ha, hb]
        · have hb : b.toNat ≠ 0 := by
            intro hb; apply ha; apply hza.mp; rw [hab]; exact hzb.mpr hb
          simp only [strcasecmp, cstr_cons, hab, ha, hb, if_true, if_false, List.map_cons,
            List.cons.injEq, true_and]
          exact ih'
      · have hne : (tolower a.toNat : Int) - (tolower b.toNat : Int) ≠ 0 := by omega
        simp only [strcasecmp, hab, if_false, hne, false_iff, cstr_cons]
        by_cases ha : a.toNat = 0
        · have hb : b.toNat ≠ 0 := by
            intro hb; apply hab; rw [hza.mpr ha, hzb.mpr hb]
          simp [ha, hb]
        · by_cases hb : b.toNat = 0
          · simp [ha, hb]
          · simp [ha, hb, hab]

/-- Conversely, the extractor completes with `e` on every bundle of which `e` is an
accepted reading. -/
theorem extractData_of_accepted {D : Type} {d : inla_cgeneric_data_tp D} {e : Extracted D}
    (acc : Accepted d e) : extractData d = Except.ok e := by
  obtain ⟨r0, a0, b0, c0⟩ := acc.rec_n
  obtain ⟨r1, a1, b1, c1⟩ := acc.rec_debug
  obtain ⟨r7, a7, b7, c7⟩ := acc.rec_seven
  obtain ⟨r8, a8, b8, c8⟩ := acc.rec_eight
  obtain ⟨d2, x2, y2, z2⟩ := acc.rec_start_theta
  obtain ⟨d3, x3, y3, z3⟩ := acc.rec_start_lsigma
  obtain ⟨d4, x4, y4, z4⟩ := acc.rec_theta_meanlog
  obtain ⟨d5, x5, y5, z5⟩ := acc.rec_theta_sdlog
  obtain ⟨d6, x6, y6, z6⟩ := acc.rec_sigma_meanlog
  obtain ⟨d7, x7, y7, z7⟩ := acc.rec_sigma_sdlog
  obtain ⟨c2, xc, yc, zc⟩ := acc.rec_parameterization
  obtain ⟨f1, f2, f3, f4, f5, f6⟩ := acc.fields_Tc
  have hdebug : (if e.debug = 1 then 1 else e.debug) = e.debug := by
    split
    · rename_i h1; exact h1.symm
    · rfl
  unfold extractData
  simp only [assert_bind_ok, rd_bind_ok, intRecord_bind_ok, doubleRecord_bind_ok,
    Except.ok.injEq]
  refine ⟨acc.n_ints, acc.n_doubles, r0, a0, b0, e.N, c0, acc.N_pos, r1, a1, b1, e.debug, c1,
    e.graph_i, acc.rec_graph_i, acc.name_graph_i, e.graph_j, acc.rec_graph_j, acc.name_graph_j,
    ?_, e.stationary_endpoints, acc.rec_stationary, acc.name_stationary, e.upper_edges,
    acc.rec_upper, acc.name_upper, e.lower_edges, acc.rec_lower, acc.name_lower, r7, a7, b7,
    e.lower_edges_len, c7, r8, a8, b8, e.upper_edges_len, c8, e.Tc, acc.rec_Tc, acc.name_Tc,
    e.El, acc.rec_El, acc.name_El, d2, x2, y2, e.start_theta, z2, d3, x3, y3, e.start_lsigma,
    z3, d4, x4, y4, e.prior_theta_meanlog, z4, d5, x5, y5, e.prior_theta_sdlog, z5, d6, x6, y6,
    e.prior_sigma_meanlog, z6, d7, x7, y7, e.prior_sigma_sdlog, z7, c2, xc, yc, ?_⟩
  · rw [← acc.M_graph_i]; exact acc.M_graph_j
  · have hM := acc.M_graph_i
    have hE := acc.nE_El
    cases e
    simp only at f1 f2 f3 f4 f5 f6 zc hM hE hdebug
    simp only [hdebug, ← f1, ← f2, ← f3, ← f4, ← f5, ← f6, ← zc, ← hM, ← hE]

/-- The extractor completes with the locals `e` exactly when every check of lines 17-97
holds and `e` holds the values read. -/
theorem extractData_ok_iff {D : Type} (d : inla_cgeneric_data_tp D) (e : Extracted D) :
    extractData d = Except.ok e ↔ Accepted d e :=
  ⟨extractData_ok, extractData_of_accepted⟩

/-- The transform of a non-NULL `theta`, on every carrier. -/
theorem transformTheta_some {D : Type} [CDouble D] (theta0 theta1 : D) (p : List Char) :
    transformTheta (some (theta0, theta1)) p =
      { lkappa := some (if sameNameNoCase p "matern".toList then 0.5 * log 12.0 - theta1
          else theta1),
        lsigma := some theta0,
        kappa := some (exp (if sameNameNoCase p "matern".toList then 0.5 * log 12.0 - theta1
          else theta1)),
        sigma := some (exp theta0),
        tau := some (1.0 / exp theta0) } := by
  by_cases hm : sameNameNoCase p "matern".toList
  · have hc := (strcasecmp_eq_zero_iff p "matern".toList).mpr hm
    simp only [transformTheta, hc, hm, if_true]
  · have hc : ¬ strcasecmp p "matern".toList = 0 :=
      fun h => hm ((strcasecmp_eq_zero_iff p "matern".toList).mp h)
    simp only [transformTheta, hc, hm, if_false]

/-! ## Lemmas on the carrier `RealD` -/

namespace RealD

theorem add_def (a b : RealD) : a + b = lift₂ (fun a b => a + b) a b := rfl
theorem sub_def (a b : RealD) : a - b = lift₂ (fun a b => a - b) a b := rfl
theorem mul_def (a b : RealD) : a * b = lift₂ (fun a b => a * b) a b := rfl
theorem div_def (a b : RealD) : a / b = divD a b := rfl
theorem neg_def (a : RealD) : -a = negD a := rfl
theorem log_def (a : RealD) : log a = logD a := rfl
theorem exp_def (a : RealD) : exp a = expD a := rfl
theorem nan_def : (NAN : RealD) = nan := rfl
theorem pi_def : (M_PI : RealD) = num Real.pi := rfl
theorem ofScientific_def (m : Nat) (s : Bool) (e : Nat) :
    (OfScientific.ofScientific m s e : RealD) = num (OfScientific.ofScientific m s e) := rfl
theorem intCast_def (n : Int) : ((n : Int) : RealD) = num (n : ℝ) := rfl

end RealD

/-- The term that one `+=` of the LOG_PRIOR branch adds is the spec's `Normal_logpdf`. -/
theorem logpdf_term (x m s : RealD) :
    (-0.5) * SQR (x - m) / (SQR s) - log s - 0.5 * log (2.0 * M_PI) = Normal_logpdfD x m s := by
  have h2pi : (0 : ℝ) < 2.0 * Real.pi := by positivity
  rcases x with x | _ <;> rcases m with m | _ <;> rcases s with s | _
  case num.num.num =>
    simp only [SQR, RealD.sub_def, RealD.mul_def, RealD.div_def, RealD.neg_def, RealD.log_def,
      RealD.pi_def, RealD.ofScientific_def, RealD.lift₂, RealD.divD, RealD.logD, RealD.negD,
      Normal_logpdfD, h2pi, if_true]
    by_cases hs : 0 < s
    · have hs0 : s * s ≠ 0 := by positivity
      have hsne : s ≠ 0 := ne_of_gt hs
      simp only [hs, hs0, if_true, if_false, RealD.lift₂, Normal_logpdf, RealD.num.injEq]
      field_simp
      norm_num
      ring_nf
    · simp only [hs, if_false]
      split_ifs <;> rfl
  all_goals
    simp only [SQR, RealD.sub_def, RealD.mul_def, RealD.div_def, RealD.neg_def, RealD.log_def,
      RealD.pi_def, RealD.ofScientific_def, RealD.lift₂, RealD.divD, RealD.logD, RealD.negD,
      Normal_logpdfD, h2pi, if_true]

/-- Adding to the zero that `Calloc` left changes nothing. -/
theorem RealD.zero_add (a : RealD) : (0.0 : RealD) + a = a := by
  cases a with
  | num r =>
    simp only [RealD.add_def, RealD.ofScientific_def, RealD.lift₂, RealD.num.injEq]
    norm_num
  | nan => rfl

/-- The extractor accepts the sample bundle. -/
theorem extract_sample (D : Type) [CDouble D] (p : String) :
    extractData (sampleBundle D p) = Except.ok (sampleExtracted D p) := rfl

/-! ## The command protocol -/

/-- C1: on a bundle that the extractor accepts, and for every `theta` (NULL or not),
the GRAPH command returns a sequence of length `2 + 2 * M` whose entry 0 is `N`
(the first value of integer record 0), whose entry 1 is `M` (the common length of
`prec_graph_i` and `prec_graph_j`, integer records 2 and 3), whose entries `2 .. M+1`
are `prec_graph_i` in order and whose entries `M+2 .. 2M+1` are `prec_graph_j` in
order; the kernel is not called. -/
theorem graph_returns_dims_then_indices {D : Type} [CDouble D] (kernel : Kernel D)
    (theta : Option (D × D)) (d : inla_cgeneric_data_tp D) (e : Extracted D)
    (hv : extractData d = Except.ok e) :
    (∃ r, d.ints[0]? = some r ∧ r.ints[0]? = some e.N) ∧
    d.ints[2]? = some e.graph_i ∧ d.ints[3]? = some e.graph_j ∧
    e.graph_i.ints.length = e.M ∧ e.graph_j.ints.length = e.M ∧
    ∃ out : List D,
      inla_cgeneric_gpgraph_alpha2_model kernel INLA_CGENERIC_GRAPH theta d =
        Except.ok { ret := some out, calls := [] } ∧
      out = ((e.N : Int) : D) :: (((e.M : Nat) : Int) : D) ::
        (e.graph_i.ints.map (fun v => ((v : Int) : D)) ++
          e.graph_j.ints.map (fun v => ((v : Int) : D))) ∧
      out.length = 2 + 2 * e.M ∧
      out[0]? = some ((e.N : Int) : D) ∧
      out[1]? = some (((e.M : Nat) : Int) : D) ∧
      (∀ t, t < e.M → out[2 + t]? = (e.graph_i.ints[t]?).map (fun v => ((v : Int) : D))) ∧
      (∀ t, t < e.M →
        out[e.M + 2 + t]? = (e.graph_j.ints[t]?).map (fun v => ((v : Int) : D))) := by
  have acc := extractData_ok hv
  obtain ⟨r0, hr0, hname, hN⟩ := acc.rec_n
  have hgi := acc.rec_graph_i
  have hgj := acc.rec_graph_j
  have hMi := acc.M_graph_i
  have hMj := acc.M_graph_j
  refine ⟨⟨r0, hr0, hN⟩, hgi, hgj, hMi.symm, hMj.symm, _, ?_, rfl, ?_, by simp, by simp, ?_, ?_⟩
  · rw [model_of_extract kernel _ theta hv]
    exact dispatch_graph kernel theta e _ hMi.symm hMj.symm
  · simp only [List.length_cons, List.length_append, List.length_map, ← hMi, ← hMj]
    omega
  · intro t ht
    have h2 : 2 + t = t + 1 + 1 := by omega
    rw [h2, List.getElem?_cons_succ, List.getElem?_cons_succ,
      List.getElem?_append_left (by simpa [← hMi] using ht), List.getElem?_map]
  · intro t ht
    have h2 : e.M + 2 + t = (e.M + t) + 1 + 1 := by omega
    rw [h2, List.getElem?_cons_succ, List.getElem?_cons_succ,
      List.getElem?_append_right (by simp [← hMi]), List.getElem?_map]
    simp [← hMi]

/-- Witness of C1: the sample bundle, whose GRAPH answer is
`[2, 3, 0, 0, 1, 0, 1, 1]`. -/
theorem graph_returns_dims_then_indices_witness :
    extractData (sampleBundle RealD "spde") = Except.ok (sampleExtracted RealD "spde") ∧
    inla_cgeneric_gpgraph_alpha2_model (constKernel RealD.nan) INLA_CGENERIC_GRAPH none
        (sampleBundle RealD "spde") =
      Except.ok { ret := some [((2 : Int) : RealD), ((3 : Int) : RealD), ((0 : Int) : RealD),
                    ((0 : Int) : RealD), ((1 : Int) : RealD), ((0 : Int) : RealD),
                    ((1 : Int) : RealD), ((1 : Int) : RealD)],
                  calls := [] } := by
  refine ⟨extract_sample RealD "spde", ?_⟩
  obtain ⟨hN, hgi, hgj, hMi, hMj, out, h1, h2, hrest⟩ :=
    graph_returns_dims_then_indices (constKernel RealD.nan) none (sampleBundle RealD "spde")
      (sampleExtracted RealD "spde") (extract_sample RealD "spde")
  rw [h1, h2]
  rfl

/-- C2: on a bundle that the extractor accepts, and for every non-NULL `theta`, the Q
command returns a sequence of length `2 + M` (`M` the length of `prec_graph_i`) whose
entry 0 is `-1` and whose entry 1 is `M`, followed by `M` values: at offset `n` the
value that the kernel stored there (the zero of `Calloc` where it stored none); the
kernel is called once, with the `kappa` and `tau` of the transform. -/
theorem q_returns_header_then_kernel_values {D : Type} [CDouble D] (kernel : Kernel D)
    (theta : D × D) (d : inla_cgeneric_data_tp D) (e : Extracted D)
    (hv : extractData d = Except.ok e) :
    d.ints[2]? = some e.graph_i ∧ e.graph_i.ints.length = e.M ∧
    ∃ (kappa tau : D) (q : List D),
      (transformTheta (some theta) e.parameterization).kappa = some kappa ∧
      (transformTheta (some theta) e.parameterization).tau = some tau ∧
      inla_cgeneric_gpgraph_alpha2_model kernel INLA_CGENERIC_Q (some theta) d =
        Except.ok { ret := some (((-1 : Int) : D) :: (((e.M : Nat) : Int) : D) :: q),
                    calls := [qArgs e kappa tau] } ∧
      (((-1 : Int) : D) :: (((e.M : Nat) : Int) : D) :: q).length = 2 + e.M ∧
      q.length = e.M ∧
      ∀ n, n < e.M → q[n]? = some ((kernel (qArgs e kappa tau) n).getD (0.0 : D)) := by
  have hgi := (extractData_ok hv).rec_graph_i
  have hMi := (extractData_ok hv).M_graph_i
  obtain ⟨theta0, theta1⟩ := theta
  refine ⟨hgi, hMi.symm, ?_⟩
  let kappa : D :=
    exp (if strcasecmp e.parameterization "matern".toList = 0 then 0.5 * log 12.0 - theta1
      else theta1)
  let tau : D := 1.0 / exp theta0
  refine ⟨kappa, tau,
    storeKernel (kernel (qArgs e kappa tau)) 0 (List.replicate e.M (0.0 : D)), rfl, rfl,
    ?_, ?_, ?_, ?_⟩
  · rw [model_of_extract kernel _ _ hv]
    simp only [dispatch, transformTheta, readLocal, calloc_two_add, wr, bind, Except.bind,
      List.length_cons, Nat.zero_lt_succ, if_true, List.set_cons_zero, List.set_cons_succ,
      Nat.succ_lt_succ_iff, List.take_succ_cons, List.take_zero, List.drop_succ_cons,
      List.drop_zero, List.cons_append, List.nil_append]
  · simp only [List.length_cons, storeKernel_length, List.length_replicate]
    omega
  · simp only [storeKernel_length, List.length_replicate]
  · intro n hn
    simp only [storeKernel_getElem?, List.getElem?_replicate_of_lt hn, Option.map_some',
      Nat.zero_add]

/-- Witness of C2: the sample bundle, `theta = [0, 0]` and a kernel that stores 1
everywhere. -/
theorem q_returns_header_then_kernel_values_witness :
    extractData (sampleBundle RealD "spde") = Except.ok (sampleExtracted RealD "spde") ∧
    ∃ (kappa tau : RealD) (q : List RealD),
      inla_cgeneric_gpgraph_alpha2_model (constKernel (RealD.num 1)) INLA_CGENERIC_Q
          (some (RealD.num 0, RealD.num 0)) (sampleBundle RealD "spde") =
        Except.ok { ret := some (((-1 : Int) : RealD) :: ((3 : Int) : RealD) :: q),
                    calls := [qArgs (sampleExtracted RealD "spde") kappa tau] } ∧
      q.length = 3 ∧ q[0]? = some (RealD.num 1) := by
  refine ⟨extract_sample RealD "spde", ?_⟩
  obtain ⟨hgi, hMi, kappa, tau, q, hk, ht, h1, h2, h3, h4⟩ :=
    q_returns_header_then_kernel_values (constKernel (RealD.num 1))
      (RealD.num 0, RealD.num 0) (sampleBundle RealD "spde")
      (sampleExtracted RealD "spde") (extract_sample RealD "spde")
  exact ⟨kappa, tau, q, h1, h3, h4 0 (by decide)⟩

/-- C5: on a bundle that the extractor accepts, and for every `theta` (NULL or not),
the INITIAL command returns exactly `[2, start_lsigma, start_theta]`, where
`start_lsigma` is the first value of double record 3 and `start_theta` the first value
of double record 2; the answer is the same for every `theta`. -/
theorem initial_returns_count_then_starts {D : Type} [CDouble D] (kernel : Kernel D)
    (theta : Option (D × D)) (d : inla_cgeneric_data_tp D) (e : Extracted D)
    (hv : extractData d = Except.ok e) :
    (∃ r, d.doubles[3]? = some r ∧ r.doubles[0]? = some e.start_lsigma) ∧
    (∃ r, d.doubles[2]? = some r ∧ r.doubles[0]? = some e.start_theta) ∧
    inla_cgeneric_gpgraph_alpha2_model kernel INLA_CGENERIC_INITIAL theta d =
      Except.ok { ret := some [((2 : Int) : D), e.start_lsigma, e.start_theta],
                  calls := [] } ∧
    ∀ theta2 : Option (D × D),
      inla_cgeneric_gpgraph_alpha2_model kernel INLA_CGENERIC_INITIAL theta2 d =
        inla_cgeneric_gpgraph_alpha2_model kernel INLA_CGENERIC_INITIAL theta d := by
  obtain ⟨r2, hr2, hname2, hv2⟩ := (extractData_ok hv).rec_start_theta
  obtain ⟨r3, hr3, hname3, hv3⟩ := (extractData_ok hv).rec_start_lsigma
  have hI : ∀ th : Option (D × D),
      inla_cgeneric_gpgraph_alpha2_model kernel INLA_CGENERIC_INITIAL th d =
        Except.ok { ret := some [((2 : Int) : D), e.start_lsigma, e.start_theta],
                    calls := [] } := by
    intro th
    rw [model_of_extract kernel _ _ hv]
    simp [dispatch, Calloc, wr, bind, Except.bind, List.replicate_succ]
  exact ⟨⟨r3, hr3, hv3⟩, ⟨r2, hr2, hv2⟩, hI theta, fun th => (hI th).trans (hI theta).symm⟩

/-- Witness of C5: the sample bundle, with `theta = [1, 1]` and with NULL. -/
theorem initial_returns_count_then_starts_witness :
    extractData (sampleBundle RealD "spde") = Except.ok (sampleExtracted RealD "spde") ∧
    inla_cgeneric_gpgraph_alpha2_model (constKernel RealD.nan) INLA_CGENERIC_INITIAL
        (some (RealD.num 1, RealD.num 1)) (sampleBundle RealD "spde") =
      Except.ok { ret := some [((2 : Int) : RealD), (0.0 : RealD), (0.0 : RealD)],
                  calls := [] } ∧
    inla_cgeneric_gpgraph_alpha2_model (constKernel RealD.nan) INLA_CGENERIC_INITIAL none
        (sampleBundle RealD "spde") =
      inla_cgeneric_gpgraph_alpha2_model (constKernel RealD.nan) INLA_CGENERIC_INITIAL
        (some (RealD.num 1, RealD.num 1)) (sampleBundle RealD "spde") := by
  refine ⟨extract_sample RealD "spde", ?_⟩
  obtain ⟨hr3, hr2, h1, h2⟩ :=
    initial_returns_count_then_starts (constKernel RealD.nan)
      (some (RealD.num 1, RealD.num 1)) (sampleBundle RealD "spde")
      (sampleExtracted RealD "spde") (extract_sample RealD "spde")
  exact ⟨h1, h2 none⟩

/-- C7: on a bundle that the extractor accepts, and for every `theta`, the VOID command
ends in the failed assertion of line 120: the call returns nothing, neither a sequence
nor NULL. -/
theorem void_fails_assertion {D : Type} [CDouble D] (kernel : Kernel D)
    (theta : Option (D × D)) (d : inla_cgeneric_data_tp D) (e : Extracted D)
    (hv : extractData d = Except.ok e) :
    inla_cgeneric_gpgraph_alpha2_model kernel INLA_CGENERIC_VOID theta d =
        Except.error Fault.assertion ∧
    ∀ o : Outcome D,
      inla_cgeneric_gpgraph_alpha2_model kernel INLA_CGENERIC_VOID theta d ≠ Except.ok o := by
  have h : inla_cgeneric_gpgraph_alpha2_model kernel INLA_CGENERIC_VOID theta d =
      Except.error Fault.assertion := by
    rw [model_of_extract kernel _ _ hv]
    simp [dispatch, assert, bind, Except.bind]
  refine ⟨h, fun o ho => ?_⟩
  rw [h] at ho
  cases ho

/-- Witness of C7: the sample bundle with `theta = [0, 0]`. -/
theorem void_fails_assertion_witness :
    extractData (sampleBundle RealD "spde") = Except.ok (sampleExtracted RealD "spde") ∧
    inla_cgeneric_gpgraph_alpha2_model (constKernel RealD.nan) INLA_CGENERIC_VOID
        (some (RealD.num 0, RealD.num 0)) (sampleBundle RealD "spde") =
      Except.error Fault.assertion :=
  ⟨extract_sample RealD "spde",
    (void_fails_assertion (constKernel RealD.nan) (some (RealD.num 0, RealD.num 0))
      (sampleBundle RealD "spde") (sampleExtracted RealD "spde")
      (extract_sample RealD "spde")).1⟩

/-- C8: on a bundle that the extractor accepts, and for every `theta`, the commands
LOG_NORM_CONST and QUIT and every command value that is none of the eight named ones
return to the caller with NULL: no sequence, no call of the kernel, no fault. -/
theorem no_op_commands_return_null {D : Type} [CDouble D] (kernel : Kernel D)
    (theta : Option (D × D)) (d : inla_cgeneric_data_tp D) (e : Extracted D)
    (hv : extractData d = Except.ok e) :
    inla_cgeneric_gpgraph_alpha2_model kernel INLA_CGENERIC_LOG_NORM_CONST theta d =
        Except.ok { ret := none, calls := [] } ∧
    inla_cgeneric_gpgraph_alpha2_model kernel INLA_CGENERIC_QUIT theta d =
        Except.ok { ret := none, calls := [] } ∧
    ∀ code : Int,
      inla_cgeneric_gpgraph_alpha2_model kernel (inla_cgeneric_cmd_tp.other code) theta d =
        Except.ok { ret := none, calls := [] } := by
  refine ⟨?_, ?_, fun code => ?_⟩ <;>
    rw [model_of_extract kernel _ _ hv] <;> rfl

/-- Witness of C8: the sample bundle with NULL `theta` and the command value 99. -/
theorem no_op_commands_return_null_witness :
    extractData (sampleBundle RealD "spde") = Except.ok (sampleExtracted RealD "spde") ∧
    inla_cgeneric_gpgraph_alpha2_model (constKernel RealD.nan)
        (inla_cgeneric_cmd_tp.other 99) none (sampleBundle RealD "spde") =
      Except.ok { ret := none, calls := [] } :=
  ⟨extract_sample RealD "spde",
    (no_op_commands_return_null (constKernel RealD.nan) none (sampleBundle RealD "spde")
      (sampleExtracted RealD "spde") (extract_sample RealD "spde")).2.2 99⟩

/-- C9: on a bundle that the extractor accepts, and for every `theta` (NULL or not),
the MU command returns exactly the one-element sequence `[0.0]`. -/
theorem mu_returns_zero {D : Type} [CDouble D] (kernel : Kernel D)
    (theta : Option (D × D)) (d : inla_cgeneric_data_tp D) (e : Extracted D)
    (hv : extractData d = Except.ok e) :
    inla_cgeneric_gpgraph_alpha2_model kernel INLA_CGENERIC_MU theta d =
      Except.ok { ret := some [(0.0 : D)], calls := [] } := by
  rw [model_of_extract kernel _ _ hv]
  simp [dispatch, Calloc, wr, bind, Except.bind, List.replicate_succ]

/-- Witness of C9: the sample bundle with NULL `theta`. -/
theorem mu_returns_zero_witness :
    extractData (sampleBundle RealD "spde") = Except.ok (sampleExtracted RealD "spde") ∧
    inla_cgeneric_gpgraph_alpha2_model (constKernel RealD.nan) INLA_CGENERIC_MU none
        (sampleBundle RealD "spde") =
      Except.ok { ret := some [(0.0 : RealD)], calls := [] } :=
  ⟨extract_sample RealD "spde",
    mu_returns_zero (constKernel RealD.nan) none (sampleBundle RealD "spde")
      (sampleExtracted RealD "spde") (extract_sample RealD "spde")⟩

/-- The LOG_PRIOR branch on the carrier `RealD`, for a non-NULL `theta`. -/
theorem dispatch_log_prior (kernel : Kernel RealD) (theta0 theta1 : RealD)
    (e : Extracted RealD) :
    dispatch kernel INLA_CGENERIC_LOG_PRIOR (some (theta0, theta1)) e
        (transformTheta (some (theta0, theta1)) e.parameterization) =
      Except.ok { ret := some [Normal_logpdfD theta1 e.prior_theta_meanlog e.prior_theta_sdlog +
                    Normal_logpdfD theta0 e.prior_sigma_meanlog e.prior_sigma_sdlog],
                  calls := [] } := by
  simp only [dispatch, transformTheta, Calloc, wr, rd, deref, readLocal, bind, Except.bind,
    List.replicate_succ, List.replicate_zero, List.length_cons, List.length_nil,
    Nat.zero_lt_succ, if_true, List.set_cons_zero, List.getElem?_cons_zero, logpdf_term,
    RealD.zero_add]

/-- C3: on a bundle that the extractor accepts, and for every non-NULL
`theta = [theta0, theta1]`, the LOG_PRIOR command returns a one-element sequence whose
value is `Normal_logpdf(theta1; prior_theta_meanlog, prior_theta_sdlog) +
Normal_logpdf(theta0; prior_sigma_meanlog, prior_sigma_sdlog)`; for real arguments
with positive standard deviations this is the real number that the spec's formula
gives, and with both means 0, both standard deviations 1 and `theta = [0, 0]` it is
`2 * (-0.5 * log (2 * pi))`. -/
theorem log_prior_is_sum_of_normal_logpdfs (kernel : Kernel RealD) (theta0 theta1 : RealD)
    (d : inla_cgeneric_data_tp RealD) (e : Extracted RealD)
    (hv : extractData d = Except.ok e) :
    inla_cgeneric_gpgraph_alpha2_model kernel INLA_CGENERIC_LOG_PRIOR (some (theta0, theta1)) d =
      Except.ok { ret := some [Normal_logpdfD theta1 e.prior_theta_meanlog e.prior_theta_sdlog +
                    Normal_logpdfD theta0 e.prior_sigma_meanlog e.prior_sigma_sdlog],
                  calls := [] } ∧
    (∀ t0 t1 m1 s1 m2 s2 : ℝ, theta0 = RealD.num t0 → theta1 = RealD.num t1 →
      e.prior_theta_meanlog = RealD.num m1 → e.prior_theta_sdlog = RealD.num s1 →
      e.prior_sigma_meanlog = RealD.num m2 → e.prior_sigma_sdlog = RealD.num s2 →
      0 < s1 → 0 < s2 →
      inla_cgeneric_gpgraph_alpha2_model kernel INLA_CGENERIC_LOG_PRIOR
          (some (theta0, theta1)) d =
        Except.ok { ret := some [RealD.num (Normal_logpdf t1 m1 s1 + Normal_logpdf t0 m2 s2)],
                    calls := [] }) ∧
    (theta0 = RealD.num 0 → theta1 = RealD.num 0 →
      e.prior_theta_meanlog = RealD.num 0 → e.prior_theta_sdlog = RealD.num 1 →
      e.prior_sigma_meanlog = RealD.num 0 → e.prior_sigma_sdlog = RealD.num 1 →
      inla_cgeneric_gpgraph_alpha2_model kernel INLA_CGENERIC_LOG_PRIOR
          (some (theta0, theta1)) d =
        Except.ok { ret := some [RealD.num (2 * (-0.5 * Real.log (2 * Real.pi)))],
                    calls := [] }) := by
  have hmain := (model_of_extract kernel INLA_CGENERIC_LOG_PRIOR (some (theta0, theta1)) hv).trans
    (dispatch_log_prior kernel theta0 theta1 e)
  have hreal : ∀ t0 t1 m1 s1 m2 s2 : ℝ, theta0 = RealD.num t0 → theta1 = RealD.num t1 →
      e.prior_theta_meanlog = RealD.num m1 → e.prior_theta_sdlog = RealD.num s1 →
      e.prior_sigma_meanlog = RealD.num m2 → e.prior_sigma_sdlog = RealD.num s2 →
      0 < s1 → 0 < s2 →
      inla_cgeneric_gpgraph_alpha2_model kernel INLA_CGENERIC_LOG_PRIOR
          (some (theta0, theta1)) d =
        Except.ok { ret := some [RealD.num (Normal_logpdf t1 m1 s1 + Normal_logpdf t0 m2 s2)],
                    calls := [] } := by
    intro t0 t1 m1 s1 m2 s2 h0 h1 hm1 hs1 hm2 hs2 hp1 hp2
    rw [hmain, h0, h1, hm1, hs1, hm2, hs2]
    simp only [Normal_logpdfD, hp1, hp2, if_true, RealD.add_def, RealD.lift₂]
  refine ⟨hmain, hreal, ?_⟩
  intro h0 h1 hm1 hs1 hm2 hs2
  rw [hreal 0 0 0 1 0 1 h0 h1 hm1 hs1 hm2 hs2 one_pos one_pos]
  have hval : Normal_logpdf 0 0 1 + Normal_logpdf 0 0 1 = 2 * (-0.5 * Real.log (2 * Real.pi)) := by
    simp only [Normal_logpdf, sub_self, zero_div, Real.log_one]
    ring
  rw [hval]

/-- Witness of C3: the sample bundle (means 0, standard deviations 1) at
`theta = [0, 0]`. -/
theorem log_prior_is_sum_of_normal_logpdfs_witness :
    extractData (sampleBundle RealD "spde") = Except.ok (sampleExtracted RealD "spde") ∧
    inla_cgeneric_gpgraph_alpha2_model (constKernel RealD.nan) INLA_CGENERIC_LOG_PRIOR
        (some (RealD.num 0, RealD.num 0)) (sampleBundle RealD "spde") =
      Except.ok { ret := some [RealD.num (2 * (-0.5 * Real.log (2 * Real.pi)))],
                  calls := [] } := by
  have h0 : (0.0 : RealD) = RealD.num 0 := by
    rw [RealD.ofScientific_def]; norm_num
  have h1 : (1.0 : RealD) = RealD.num 1 := by
    rw [RealD.ofScientific_def]; norm_num
  exact ⟨extract_sample RealD "spde",
    (log_prior_is_sum_of_normal_logpdfs (constKernel RealD.nan) (RealD.num 0) (RealD.num 0)
      (sampleBundle RealD "spde") (sampleExtracted RealD "spde")
      (extract_sample RealD "spde")).2.2 rfl rfl h0 h1 h0 h1⟩

/-- C4: for every non-NULL `theta = [theta0, theta1]` of real numbers the transform
gives `lsigma = theta0`; `lkappa = 0.5 * log 12 - theta1` when the parameterization
equals "matern" under case-insensitive comparison (as "matern", "MATERN" and "Matern"
do) and `lkappa = theta1` otherwise; `kappa = exp lkappa`, `sigma = exp lsigma` and
`tau = 1 / sigma`.  With `theta = [0, 0]` and a parameterization other than "matern",
`kappa = sigma = tau = 1`. -/
theorem transform_of_real_theta (t0 t1 : ℝ) (p : List Char) :
    (transformTheta (some (RealD.num t0, RealD.num t1)) p).lsigma = some (RealD.num t0) ∧
    (sameNameNoCase p "matern".toList →
      (transformTheta (some (RealD.num t0, RealD.num t1)) p).lkappa =
        some (RealD.num (0.5 * Real.log 12 - t1))) ∧
    (¬ sameNameNoCase p "matern".toList →
      (transformTheta (some (RealD.num t0, RealD.num t1)) p).lkappa = some (RealD.num t1)) ∧
    (∃ lk : ℝ, (transformTheta (some (RealD.num t0, RealD.num t1)) p).lkappa =
        some (RealD.num lk) ∧
      (transformTheta (some (RealD.num t0, RealD.num t1)) p).kappa =
        some (RealD.num (Real.exp lk))) ∧
    (transformTheta (some (RealD.num t0, RealD.num t1)) p).sigma =
      some (RealD.num (Real.exp t0)) ∧
    (transformTheta (some (RealD.num t0, RealD.num t1)) p).tau =
      some (RealD.num (1 / Real.exp t0)) ∧
    sameNameNoCase "matern".toList "matern".toList ∧
    sameNameNoCase "MATERN".toList "matern".toList ∧
    sameNameNoCase "Matern".toList "matern".toList ∧
    (¬ sameNameNoCase p "matern".toList →
      transformTheta (some (RealD.num 0, RealD.num 0)) p =
        { lkappa := some (RealD.num 0), lsigma := some (RealD.num 0),
          kappa := some (RealD.num 1), sigma := some (RealD.num 1),
          tau := some (RealD.num 1) }) := by
  have h12 : (0 : ℝ) < 12.0 := by norm_num
  have hlk : ∀ a b : ℝ, (transformTheta (some (RealD.num a, RealD.num b)) p).lkappa =
      some (RealD.num (if sameNameNoCase p "matern".toList then 0.5 * Real.log 12 - b
        else b)) := by
    intro a b
    by_cases hm : sameNameNoCase p "matern".toList
    · have hc := (strcasecmp_eq_zero_iff p "matern".toList).mpr hm
      simp only [transformTheta, hc, hm, if_true, RealD.sub_def, RealD.mul_def,
        RealD.log_def, RealD.ofScientific_def, RealD.logD, RealD.lift₂, h12]
      norm_num
    · have hc : ¬ strcasecmp p "matern".toList = 0 :=
        fun h => hm ((strcasecmp_eq_zero_iff p "matern".toList).mp h)
      simp only [transformTheta, hc, hm, if_false]
  have hk : ∀ a b lk : ℝ, (transformTheta (some (RealD.num a, RealD.num b)) p).lkappa =
      some (RealD.num lk) →
      (transformTheta (some (RealD.num a, RealD.num b)) p).kappa =
        some (RealD.num (Real.exp lk)) := by
    intro a b lk h
    simp only [transformTheta, Option.some.injEq] at h ⊢
    rw [h, RealD.exp_def, RealD.expD]
  have hsig : ∀ a b : ℝ, (transformTheta (some (RealD.num a, RealD.num b)) p).sigma =
      some (RealD.num (Real.exp a)) := by
    intro a b
    simp only [transformTheta, RealD.exp_def, RealD.expD]
  have htau : ∀ a b : ℝ, (transformTheta (some (RealD.num a, RealD.num b)) p).tau =
      some (RealD.num (1 / Real.exp a)) := by
    intro a b
    have hne : Real.exp a ≠ 0 := Real.exp_ne_zero a
    simp only [transformTheta, RealD.exp_def, RealD.expD, RealD.div_def, RealD.divD,
      RealD.ofScientific_def, hne, if_false]
    norm_num
  refine ⟨rfl, ?_, ?_, ⟨_, hlk t0 t1, hk t0 t1 _ (hlk t0 t1)⟩, hsig t0 t1, htau t0 t1,
    by decide, by decide, by decide, ?_⟩
  · intro hm
    rw [hlk, if_pos hm]
  · intro hm
    rw [hlk, if_neg hm]
  · intro hm
    have e1 := hlk 0 0
    rw [if_neg hm] at e1
    have e2 := hk 0 0 0 e1
    have e3 := hsig 0 0
    have e4 := htau 0 0
    rw [Real.exp_zero] at e2 e3 e4
    rw [div_one] at e4
    have e0 : (transformTheta (some (RealD.num 0, RealD.num 0)) p).lsigma =
        some (RealD.num 0) := rfl
    cases hT : transformTheta (some (RealD.num 0, RealD.num 0)) p with
    | mk lkappa lsigma kappa sigma tau =>
      rw [hT] at e0 e1 e2 e3 e4
      simp only at e0 e1 e2 e3 e4
      rw [e0, e1, e2, e3, e4]

/-- Witness of C4: `theta = [0, 0]` with the parameterization "spde" gives
`kappa = sigma = tau = 1`, and with "Matern" gives `lkappa = 0.5 * log 12`. -/
theorem transform_of_real_theta_witness :
    ¬ sameNameNoCase "spde".toList "matern".toList ∧
    transformTheta (some (RealD.num 0, RealD.num 0)) "spde".toList =
      { lkappa := some (RealD.num 0), lsigma := some (RealD.num 0),
        kappa := some (RealD.num 1), sigma := some (RealD.num 1),
        tau := some (RealD.num 1) } ∧
    sameNameNoCase "Matern".toList "matern".toList ∧
    (transformTheta (some (RealD.num 0, RealD.num 0)) "Matern".toList).lkappa =
      some (RealD.num (0.5 * Real.log 12 - 0)) :=
  ⟨by decide, (transform_of_real_theta 0 0 "spde".toList).2.2.2.2.2.2.2.2.2 (by decide),
    by decide, (transform_of_real_theta 0 0 "Matern".toList).2.1 (by decide)⟩

/-- C10 (the code at the failing input): with a NULL `theta` line 114 assigns NAN to
`lkappa`, `lsigma`, `kappa` and `sigma` and leaves `tau` unassigned, so that on a
bundle the extractor accepts the Q command reads an unassigned `tau` for the call of
the kernel. -/
theorem null_theta_leaves_tau_unassigned {D : Type} [CDouble D] (kernel : Kernel D)
    (p : List Char) (d : inla_cgeneric_data_tp D) (e : Extracted D)
    (hv : extractData d = Except.ok e) :
    transformTheta (none : Option (D × D)) p =
      { lkappa := some NAN, lsigma := some NAN, kappa := some NAN, sigma := some NAN,
        tau := none } ∧
    (transformTheta (none : Option (D × D)) p).tau ≠ some NAN ∧
    inla_cgeneric_gpgraph_alpha2_model kernel INLA_CGENERIC_Q none d =
      Except.error Fault.uninitialized := by
  refine ⟨rfl, by simp [transformTheta], ?_⟩
  rw [model_of_extract kernel _ _ hv]
  simp [dispatch, transformTheta, readLocal, calloc_two_add, wr, bind, Except.bind]

/-- Witness of C10: the sample bundle. -/
theorem null_theta_leaves_tau_unassigned_witness :
    extractData (sampleBundle RealD "spde") = Except.ok (sampleExtracted RealD "spde") ∧
    (transformTheta (none : Option (RealD × RealD)) "spde".toList).tau = none ∧
    inla_cgeneric_gpgraph_alpha2_model (constKernel (RealD.num 1)) INLA_CGENERIC_Q none
        (sampleBundle RealD "spde") = Except.error Fault.uninitialized :=
  ⟨extract_sample RealD "spde", rfl,
    (null_theta_leaves_tau_unassigned (constKernel (RealD.num 1)) "spde".toList
      (sampleBundle RealD "spde") (sampleExtracted RealD "spde")
      (extract_sample RealD "spde")).2.2⟩

/-- On a bundle that the extractor accepts, every integer record carries the name
expected at its position. -/
theorem extract_int_names {D : Type} {d : inla_cgeneric_data_tp D} {e : Extracted D}
    (hv : extractData d = Except.ok e) (k : Nat) (nm : String) (r : IntVec)
    (hmem : (k, nm) ∈ intNames) (hr : d.ints[k]? = some r) :
    sameNameNoCase r.name nm.toList := by
  have acc := extractData_ok hv
  obtain ⟨r0, hr0, hn0, hv0⟩ := acc.rec_n
  obtain ⟨r1, hr1, hn1, hv1⟩ := acc.rec_debug
  obtain ⟨r7, hr7, hn7, hv7⟩ := acc.rec_seven
  obtain ⟨r8, hr8, hn8, hv8⟩ := acc.rec_eight
  rw [← strcasecmp_eq_zero_iff]
  simp only [intNames, List.mem_cons, Prod.mk.injEq, List.mem_nil_iff, or_false] at hmem
  rcases hmem with c0 | c1 | c2 | c3 | c4 | c5 | c6 | c7 | c8
  · obtain ⟨hk, hnm⟩ := c0; subst hk hnm; rw [hr0] at hr; cases hr; exact hn0
  · obtain ⟨hk, hnm⟩ := c1; subst hk hnm; rw [hr1] at hr; cases hr; exact hn1
  · obtain ⟨hk, hnm⟩ := c2; subst hk hnm; rw [acc.rec_graph_i] at hr; cases hr
    exact acc.name_graph_i
  · obtain ⟨hk, hnm⟩ := c3; subst hk hnm; rw [acc.rec_graph_j] at hr; cases hr
    exact acc.name_graph_j
  · obtain ⟨hk, hnm⟩ := c4; subst hk hnm; rw [acc.rec_stationary] at hr; cases hr
    exact acc.name_stationary
  · obtain ⟨hk, hnm⟩ := c5; subst hk hnm; rw [acc.rec_upper] at hr; cases hr
    exact acc.name_upper
  · obtain ⟨hk, hnm⟩ := c6; subst hk hnm; rw [acc.rec_lower] at hr; cases hr
    exact acc.name_lower
  · obtain ⟨hk, hnm⟩ := c7; subst hk hnm; rw [hr7] at hr; cases hr; exact hn7
  · obtain ⟨hk, hnm⟩ := c8; subst hk hnm; rw [hr8] at hr; cases hr; exact hn8

/-- On a bundle that the extractor accepts, every checked double record carries the
name expected at its position. -/
theorem extract_double_names {D : Type} {d : inla_cgeneric_data_tp D} {e : Extracted D}
    (hv : extractData d = Except.ok e) (k : Nat) (nm : String) (r : DoubleVec D)
    (hmem : (k, nm) ∈ doubleNames) (hr : d.doubles[k]? = some r) :
    sameNameNoCase r.name nm.toList := by
  have acc := extractData_ok hv
  obtain ⟨r2, hr2, hn2, hv2⟩ := acc.rec_start_theta
  obtain ⟨r3, hr3, hn3, hv3⟩ := acc.rec_start_lsigma
  obtain ⟨r4, hr4, hn4, hv4⟩ := acc.rec_theta_meanlog
  obtain ⟨r5, hr5, hn5, hv5⟩ := acc.rec_theta_sdlog
  obtain ⟨r6, hr6, hn6, hv6⟩ := acc.rec_sigma_meanlog
  obtain ⟨r7, hr7, hn7, hv7⟩ := acc.rec_sigma_sdlog
  rw [← strcasecmp_eq_zero_iff]
  simp only [doubleNames, List.mem_cons, Prod.mk.injEq, List.mem_nil_iff, or_false] at hmem
  rcases hmem with c1 | c2 | c3 | c4 | c5 | c6 | c7
  · obtain ⟨hk, hnm⟩ := c1; subst hk hnm; rw [acc.rec_El] at hr; cases hr
    exact acc.name_El
  · obtain ⟨hk, hnm⟩ := c2; subst hk hnm; rw [hr2] at hr; cases hr; exact hn2
  · obtain ⟨hk, hnm⟩ := c3; subst hk hnm; rw [hr3] at hr; cases hr; exact hn3
  · obtain ⟨hk, hnm⟩ := c4; subst hk hnm; rw [hr4] at hr; cases hr; exact hn4
  · obtain ⟨hk, hnm⟩ := c5; subst hk hnm; rw [hr5] at hr; cases hr; exact hn5
  · obtain ⟨hk, hnm⟩ := c6; subst hk hnm; rw [hr6] at hr; cases hr; exact hn6
  · obtain ⟨hk, hnm⟩ := c7; subst hk hnm; rw [hr7] at hr; cases hr; exact hn7

/-- The extractor rejects every bundle that violates the schema. -/
theorem extract_rejects_violation {D : Type} (d : inla_cgeneric_data_tp D)
    (hs : SchemaViolation d) : ∃ f, extractData d = Except.error f := by
  cases hx : extractData d with
  | error f => exact ⟨f, rfl⟩
  | ok e =>
    exfalso
    have hall := extractData_ok hx
    rcases hs with h | h | ⟨k, nm, r, hmem, hr, hne⟩ | ⟨r, hr, hne⟩ | ⟨k, nm, r, hmem, hr, hne⟩ |
      ⟨r, hr, hne⟩
    · exact h hall.n_ints
    · exact h hall.n_doubles
    · exact hne (extract_int_names hx k nm r hmem hr)
    · rw [hall.rec_Tc] at hr; cases hr
      exact hne ((strcasecmp_eq_zero_iff _ _).mp hall.name_Tc)
    · exact hne (extract_double_names hx k nm r hmem hr)
    · obtain ⟨c, hc, hnc, hpar⟩ := hall.rec_parameterization
      rw [hc] at hr; cases hr
      exact hne ((strcasecmp_eq_zero_iff _ _).mp hnc)

/-- C6: for every command and every `theta`, on a bundle that violates the schema (a
count of integer records other than 9, a count of double records other than 8, or a
checked record whose name differs case-insensitively from the name expected at its
position) the entry point ends in a fault and returns no output sequence. -/
theorem schema_violation_fails {D : Type} [CDouble D] (kernel : Kernel D)
    (cmd : inla_cgeneric_cmd_tp) (theta : Option (D × D)) (d : inla_cgeneric_data_tp D)
    (hs : SchemaViolation d) :
    (∃ f, inla_cgeneric_gpgraph_alpha2_model kernel cmd theta d = Except.error f) ∧
    ∀ o : Outcome D, inla_cgeneric_gpgraph_alpha2_model kernel cmd theta d ≠ Except.ok o := by
  obtain ⟨f, hf⟩ := extract_rejects_violation d hs
  have h : inla_cgeneric_gpgraph_alpha2_model kernel cmd theta d = Except.error f := by
    simp [inla_cgeneric_gpgraph_alpha2_model, hf, bind, Except.bind]
  refine ⟨⟨f, h⟩, fun o ho => ?_⟩
  rw [h] at ho
  cases ho

/-- The sample bundle with its first integer record renamed from "n" to "m" violates
the schema. -/
theorem renamedFirst_violates : SchemaViolation (renamedFirst RealD "m") :=
  Or.inr (Or.inr (Or.inl ⟨0, "n", mkInts "m" [2], by decide, rfl, by decide⟩))

/-- Witness of C6: a wrong name at integer position 0 makes GRAPH, Q, MU, INITIAL,
LOG_PRIOR, LOG_NORM_CONST and QUIT fail alike. -/
theorem schema_violation_fails_witness :
    SchemaViolation (renamedFirst RealD "m") ∧
    (∃ f, inla_cgeneric_gpgraph_alpha2_model (constKernel RealD.nan) INLA_CGENERIC_GRAPH
      none (renamedFirst RealD "m") = Except.error f) ∧
    (∃ f, inla_cgeneric_gpgraph_alpha2_model (constKernel RealD.nan) INLA_CGENERIC_Q
      (some (RealD.num 0, RealD.num 0)) (renamedFirst RealD "m") = Except.error f) ∧
    (∃ f, inla_cgeneric_gpgraph_alpha2_model (constKernel RealD.nan) INLA_CGENERIC_MU
      none (renamedFirst RealD "m") = Except.error f) ∧
    (∃ f, inla_cgeneric_gpgraph_alpha2_model (constKernel RealD.nan) INLA_CGENERIC_INITIAL
      none (renamedFirst RealD "m") = Except.error f) ∧
    (∃ f, inla_cgeneric_gpgraph_alpha2_model (constKernel RealD.nan) INLA_CGENERIC_LOG_PRIOR
      (some (RealD.num 0, RealD.num 0)) (renamedFirst RealD "m") = Except.error f) ∧
    (∃ f, inla_cgeneric_gpgraph_alpha2_model (constKernel RealD.nan)
      INLA_CGENERIC_LOG_NORM_CONST none (renamedFirst RealD "m") = Except.error f) ∧
    (∃ f, inla_cgeneric_gpgraph_alpha2_model (constKernel RealD.nan) INLA_CGENERIC_QUIT
      none (renamedFirst RealD "m") = Except.error f) :=
  ⟨renamedFirst_violates,
    (schema_violation_fails _ _ _ _ renamedFirst_violates).1,
    (schema_violation_fails _ _ _ _ renamedFirst_violates).1,
    (schema_violation_fails _ _ _ _ renamedFirst_violates).1,
    (schema_violation_fails _ _ _ _ renamedFirst_violates).1,
    (schema_violation_fails _ _ _ _ renamedFirst_violates).1,
    (schema_violation_fails _ _ _ _ renamedFirst_violates).1,
    (schema_violation_fails _ _ _ _ renamedFirst_violates).1⟩

/-- The LOG_PRIOR branch in closed form, on every carrier: the zero of `Calloc` plus the
term of `theta[1]` plus the term of `lsigma`. -/
theorem dispatch_log_prior_closed {D : Type} [CDouble D] (kernel : Kernel D)
    (theta0 theta1 : D) (e : Extracted D) :
    dispatch kernel INLA_CGENERIC_LOG_PRIOR (some (theta0, theta1)) e
        (transformTheta (some (theta0, theta1)) e.parameterization) =
      Except.ok (Outcome.mk (some [(0.0 : D) +
          ((-0.5) * SQR (theta1 - e.prior_theta_meanlog) / (SQR e.prior_theta_sdlog)
            - log e.prior_theta_sdlog - 0.5 * log (2.0 * M_PI)) +
          ((-0.5) * SQR (theta0 - e.prior_sigma_meanlog) / (SQR e.prior_sigma_sdlog)
            - log e.prior_sigma_sdlog - 0.5 * log (2.0 * M_PI))]) []) := by
  simp only [dispatch, transformTheta, Calloc, wr, rd, deref, readLocal, bind, Except.bind,
    List.replicate_succ, List.replicate_zero, List.length_cons, List.length_nil,
    Nat.zero_lt_succ, if_true, List.set_cons_zero, List.getElem?_cons_zero]

/-- C11: LOG_PRIOR depends on `theta` and the four prior scalars only: on two bundles
that the extractor accepts and whose `prior_theta_meanlog`, `prior_theta_sdlog`,
`prior_sigma_meanlog` and `prior_sigma_sdlog` agree (everything else, the
parameterization and the kernel included, may differ), the LOG_PRIOR results for the
same non-NULL `theta` are equal. -/
theorem log_prior_depends_on_priors_only {D : Type} [CDouble D] (kernel1 kernel2 : Kernel D)
    (theta : D × D) (d1 d2 : inla_cgeneric_data_tp D) (e1 e2 : Extracted D)
    (hv1 : extractData d1 = Except.ok e1) (hv2 : extractData d2 = Except.ok e2)
    (hm : e1.prior_theta_meanlog = e2.prior_theta_meanlog)
    (hs : e1.prior_theta_sdlog = e2.prior_theta_sdlog)
    (hsm : e1.prior_sigma_meanlog = e2.prior_sigma_meanlog)
    (hss : e1.prior_sigma_sdlog = e2.prior_sigma_sdlog) :
    inla_cgeneric_gpgraph_alpha2_model kernel1 INLA_CGENERIC_LOG_PRIOR (some theta) d1 =
      inla_cgeneric_gpgraph_alpha2_model kernel2 INLA_CGENERIC_LOG_PRIOR (some theta) d2 := by
  obtain ⟨theta0, theta1⟩ := theta
  rw [model_of_extract kernel1 _ _ hv1, model_of_extract kernel2 _ _ hv2,
    dispatch_log_prior_closed, dispatch_log_prior_closed, hm, hs, hsm, hss]

/-- Witness of C11: the sample bundle under the parameterizations "spde" and "matern",
with two kernels, at `theta = [1, 2]`. -/
theorem log_prior_depends_on_priors_only_witness :
    extractData (sampleBundle RealD "spde") = Except.ok (sampleExtracted RealD "spde") ∧
    extractData (sampleBundle RealD "matern") = Except.ok (sampleExtracted RealD "matern") ∧
    inla_cgeneric_gpgraph_alpha2_model (constKernel RealD.nan) INLA_CGENERIC_LOG_PRIOR
        (some (RealD.num 1, RealD.num 2)) (sampleBundle RealD "spde") =
      inla_cgeneric_gpgraph_alpha2_model (constKernel (RealD.num 1)) INLA_CGENERIC_LOG_PRIOR
        (some (RealD.num 1, RealD.num 2)) (sampleBundle RealD "matern") :=
  ⟨extract_sample RealD "spde", extract_sample RealD "matern",
    log_prior_depends_on_priors_only (constKernel RealD.nan) (constKernel (RealD.num 1))
      (RealD.num 1, RealD.num 2) (sampleBundle RealD "spde") (sampleBundle RealD "matern")
      (sampleExtracted RealD "spde") (sampleExtracted RealD "matern")
      (extract_sample RealD "spde") (extract_sample RealD "matern") rfl rfl rfl rfl⟩

/-- The Q branch in closed form, on every carrier and for a non-NULL `theta`: the
header, then the buffer after the stores of the one kernel call. -/
theorem dispatch_q_closed {D : Type} [CDouble D] (kernel : Kernel D) (theta0 theta1 : D)
    (e : Extracted D) (lkappa : D)
    (hl : (transformTheta (some (theta0, theta1)) e.parameterization).lkappa = some lkappa) :
    dispatch kernel INLA_CGENERIC_Q (some (theta0, theta1)) e
        (transformTheta (some (theta0, theta1)) e.parameterization) =
      Except.ok (Outcome.mk
        (some (((-1 : Int) : D) :: (((e.M : Nat) : Int) : D) ::
          storeKernel (kernel (qArgs e (exp lkappa) (1.0 / exp theta0))) 0 (Calloc D e.M)))
        [qArgs e (exp lkappa) (1.0 / exp theta0)]) := by
  simp only [transformTheta, Option.some.injEq] at hl
  subst hl
  simp only [dispatch, transformTheta, readLocal, calloc_two_add, wr, bind, Except.bind,
    List.length_cons, Nat.zero_lt_succ, if_true, List.set_cons_zero, List.set_cons_succ,
    Nat.succ_lt_succ_iff, List.take_succ_cons, List.take_zero, List.drop_succ_cons,
    List.drop_zero, List.cons_append, List.nil_append]
  rfl

/-- C12: on a bundle that the extractor accepts, and for every non-NULL `theta`, the Q
command calls the kernel exactly once, with: the `i`, `j` and `x` vectors of `Tc`
(`smats[0]`), `kappa = exp lkappa` and `tau = 1 / exp theta[0]` of the transform, `nE`
the number of entries of `El` (`doubles[1]`), the exponent `0.5`, the row count,
column count and non-zero count of `Tc`, the values of `El`, the indices of
`lower_edges` (`ints[6]`) and then those of `upper_edges` (`ints[5]`), as lower-edges
length the first value of integer record 7 and as upper-edges length the first value of
integer record 8; its output buffer is the returned sequence from position 2 on: the
sequence has length `2 + M`, entries `-1` and `M`, and at position `2 + n` the value
that this call stored at offset `n` (the zero of `Calloc` where it stored none). -/
theorem q_calls_kernel_once_with_args {D : Type} [CDouble D] (kernel : Kernel D)
    (theta0 theta1 : D) (d : inla_cgeneric_data_tp D) (e : Extracted D)
    (hv : extractData d = Except.ok e) :
    ∃ (tc : inla_cgeneric_smat_tp D) (el : DoubleVec D) (lo up r7 r8 : IntVec) (l7 l8 : Int)
      (lkappa : D) (args : KernelArgs D) (out : List D),
      d.smats[0]? = some tc ∧ d.doubles[1]? = some el ∧
      d.ints[6]? = some lo ∧ d.ints[5]? = some up ∧
      d.ints[7]? = some r7 ∧ r7.ints[0]? = some l7 ∧
      d.ints[8]? = some r8 ∧ r8.ints[0]? = some l8 ∧
      (transformTheta (some (theta0, theta1)) e.parameterization).lkappa = some lkappa ∧
      args =
        { i_Tc := tc.i, j_Tc := tc.j, x_Tc := tc.x,
          kappa := exp lkappa, tau := 1.0 / exp theta0,
          nE := (el.doubles.length : Int), alpha := 0.5,
          nrow_Tc := tc.nrow, ncol_Tc := tc.ncol, n_nonzero_Tc := tc.n,
          El := el.doubles, lower_edges := lo.ints, upper_edges := up.ints,
          lower_edges_len := l7, upper_edges_len := l8 } ∧
      inla_cgeneric_gpgraph_alpha2_model kernel INLA_CGENERIC_Q (some (theta0, theta1)) d =
        Except.ok (Outcome.mk (some out) [args]) ∧
      out.length = 2 + e.M ∧
      out[0]? = some ((-1 : Int) : D) ∧ out[1]? = some (((e.M : Nat) : Int) : D) ∧
      ∀ n, n < e.M → out[2 + n]? = some ((kernel args n).getD (0.0 : D)) := by
  have acc := extractData_ok hv
  obtain ⟨r7, hr7, hname7, hl7⟩ := acc.rec_seven
  obtain ⟨r8, hr8, hname8, hl8⟩ := acc.rec_eight
  obtain ⟨f1, f2, f3, f4, f5, f6⟩ := acc.fields_Tc
  have hnE := acc.nE_El
  have hl : (transformTheta (some (theta0, theta1)) e.parameterization).lkappa =
      some (if strcasecmp e.parameterization "matern".toList = 0
        then 0.5 * log 12.0 - theta1 else theta1) := rfl
  have hargs : qArgs e (exp (if strcasecmp e.parameterization "matern".toList = 0
      then 0.5 * log 12.0 - theta1 else theta1)) (1.0 / exp theta0) =
      { i_Tc := e.Tc.i, j_Tc := e.Tc.j, x_Tc := e.Tc.x,
        kappa := exp (if strcasecmp e.parameterization "matern".toList = 0
          then 0.5 * log 12.0 - theta1 else theta1),
        tau := 1.0 / exp theta0,
        nE := (e.El.doubles.length : Int), alpha := 0.5,
        nrow_Tc := e.Tc.nrow, ncol_Tc := e.Tc.ncol, n_nonzero_Tc := e.Tc.n,
        El := e.El.doubles, lower_edges := e.lower_edges.ints,
        upper_edges := e.upper_edges.ints,
        lower_edges_len := e.lower_edges_len, upper_edges_len := e.upper_edges_len } := by
    simp only [qArgs, f1, f2, f3, f4, f5, f6, hnE]
  refine ⟨e.Tc, e.El, e.lower_edges, e.upper_edges, r7, r8, e.lower_edges_len,
    e.upper_edges_len,
    (if strcasecmp e.parameterization "matern".toList = 0 then 0.5 * log 12.0 - theta1
      else theta1),
    qArgs e (exp (if strcasecmp e.parameterization "matern".toList = 0
      then 0.5 * log 12.0 - theta1 else theta1)) (1.0 / exp theta0),
    ((-1 : Int) : D) :: (((e.M : Nat) : Int) : D) ::
      storeKernel (kernel (qArgs e (exp (if strcasecmp e.parameterization "matern".toList = 0
        then 0.5 * log 12.0 - theta1 else theta1)) (1.0 / exp theta0))) 0 (Calloc D e.M),
    acc.rec_Tc, acc.rec_El, acc.rec_lower, acc.rec_upper, hr7, hl7, hr8, hl8, hl, hargs,
    ?_, ?_, by simp, by simp, ?_⟩
  · rw [model_of_extract kernel _ _ hv, dispatch_q_closed kernel theta0 theta1 e _ hl]
  · simp only [List.length_cons, storeKernel_length, Calloc, List.length_replicate]
    omega
  · intro n hn
    have h2 : 2 + n = n + 1 + 1 := by omega
    rw [h2, List.getElem?_cons_succ, List.getElem?_cons_succ, storeKernel_getElem?]
    simp only [Calloc, List.getElem?_replicate_of_lt hn, Option.map_some', Nat.zero_add]

/-- Witness of C12: the sample bundle at `theta = [0, 0]` with a kernel that stores 1
everywhere. -/
theorem q_calls_kernel_once_with_args_witness :
    extractData (sampleBundle RealD "spde") = Except.ok (sampleExtracted RealD "spde") ∧
    ∃ (args : KernelArgs RealD) (out : List RealD),
      inla_cgeneric_gpgraph_alpha2_model (constKernel (RealD.num 1)) INLA_CGENERIC_Q
          (some (RealD.num 0, RealD.num 0)) (sampleBundle RealD "spde") =
        Except.ok (Outcome.mk (some out) [args]) ∧
      args.i_Tc = [0, 1] ∧ args.j_Tc = [1, 2] ∧ args.nE = 1 ∧ args.nrow_Tc = 2 ∧
      args.ncol_Tc = 4 ∧ args.n_nonzero_Tc = 2 ∧ args.lower_edges = [0] ∧
      args.upper_edges = [1] ∧ args.lower_edges_len = 1 ∧ args.upper_edges_len = 1 ∧
      out.length = 5 ∧ out[0]? = some ((-1 : Int) : RealD) ∧
      out[1]? = some ((3 : Int) : RealD) ∧ out[2]? = some (RealD.num 1) ∧
      out[3]? = some (RealD.num 1) ∧ out[4]? = some (RealD.num 1) := by
  refine ⟨extract_sample RealD "spde", ?_⟩
  obtain ⟨tc, el, lo, up, r7, r8, l7, l8, lkappa, args, out, htc, hel, hlo, hup, hr7, hl7,
    hr8, hl8, hlk, hargs, hmodel, hlen, hout0, hout1, hbuf⟩ :=
    q_calls_kernel_once_with_args (constKernel (RealD.num 1)) (RealD.num 0) (RealD.num 0)
      (sampleBundle RealD "spde") (sampleExtracted RealD "spde") (extract_sample RealD "spde")
  have e1 : tc = sampleTc RealD := (Option.some.inj htc).symm
  have e2 : el = mkDoubles "El" [1.0] := (Option.some.inj hel).symm
  have e3 : lo = mkInts "lower_edges" [0] := (Option.some.inj hlo).symm
  have e4 : up = mkInts "upper_edges" [1] := (Option.some.inj hup).symm
  have e5 : r7 = mkInts "upper_edges_len" [1] := (Option.some.inj hr7).symm
  have e6 : r8 = mkInts "upper_edges_len" [1] := (Option.some.inj hr8).symm
  subst e1 e2 e3 e4 e5 e6
  have e7 : l7 = 1 := (Option.some.inj hl7).symm
  have e8 : l8 = 1 := (Option.some.inj hl8).symm
  subst e7 e8
  subst hargs
  exact ⟨_, out, hmodel, rfl, rfl, rfl, rfl, rfl, rfl, rfl, rfl, rfl, rfl, hlen, hout0, hout1,
    hbuf 0 (by decide), hbuf 1 (by decide), hbuf 2 (by decide)⟩

/-- A fault of the extractor is the fault of the entry point, whatever the command. -/
theorem model_of_extract_error {D : Type} [CDouble D] (kernel : Kernel D)
    (cmd : inla_cgeneric_cmd_tp) (theta : Option (D × D)) {d : inla_cgeneric_data_tp D}
    {f : Fault} (hf : extractData d = Except.error f) :
    inla_cgeneric_gpgraph_alpha2_model kernel cmd theta d = Except.error f := by
  simp [inla_cgeneric_gpgraph_alpha2_model, hf, bind, Except.bind]

/-- The entry point returns to its caller only on bundles that the extractor accepts. -/
theorem extract_ok_of_model_ok {D : Type} [CDouble D] (kernel : Kernel D)
    (cmd : inla_cgeneric_cmd_tp) (theta : Option (D × D)) {d : inla_cgeneric_data_tp D}
    {o : Outcome D} (h : inla_cgeneric_gpgraph_alpha2_model kernel cmd theta d = Except.ok o) :
    ∃ e, extractData d = Except.ok e := by
  cases hx : extractData d with
  | ok e => exact ⟨e, rfl⟩
  | error f =>
    rw [model_of_extract_error kernel cmd theta hx] at h
    cases h

/-- C13: the schema check wants the name "upper_edges_len" (case-insensitively) of
both integer records 7 and 8: a bundle whose record 7 or 8 carries another name, and so
a bundle whose record 7 is named "lower_edges_len", is rejected for every command and
every `theta`; on an accepted bundle the first value of record 7 is the lower-edges
length and the first value of record 8 the upper-edges length that the Q command hands
to the kernel. -/
theorem records_seven_and_eight_named_upper {D : Type} [CDouble D] (kernel : Kernel D)
    (d : inla_cgeneric_data_tp D) :
    (∀ e : Extracted D, extractData d = Except.ok e →
      ∃ r7 r8 : IntVec, d.ints[7]? = some r7 ∧ d.ints[8]? = some r8 ∧
        sameNameNoCase r7.name "upper_edges_len".toList ∧
        sameNameNoCase r8.name "upper_edges_len".toList ∧
        r7.ints[0]? = some e.lower_edges_len ∧ r8.ints[0]? = some e.upper_edges_len ∧
        ∀ theta0 theta1 : D, ∃ (args : KernelArgs D) (out : List D),
          inla_cgeneric_gpgraph_alpha2_model kernel INLA_CGENERIC_Q (some (theta0, theta1)) d =
            Except.ok (Outcome.mk (some out) [args]) ∧
          r7.ints[0]? = some args.lower_edges_len ∧
          r8.ints[0]? = some args.upper_edges_len) ∧
    (∀ (k : Nat) (r : IntVec), k = 7 ∨ k = 8 → d.ints[k]? = some r →
      ¬ sameNameNoCase r.name "upper_edges_len".toList →
      ∀ (cmd : inla_cgeneric_cmd_tp) (theta : Option (D × D)),
        ∃ f, inla_cgeneric_gpgraph_alpha2_model kernel cmd theta d = Except.error f) ∧
    (∀ r : IntVec, d.ints[7]? = some r → sameNameNoCase r.name "lower_edges_len".toList →
      ∀ (cmd : inla_cgeneric_cmd_tp) (theta : Option (D × D)),
        ∃ f, inla_cgeneric_gpgraph_alpha2_model kernel cmd theta d = Except.error f) := by
  have hrej : ∀ (k : Nat) (r : IntVec), k = 7 ∨ k = 8 → d.ints[k]? = some r →
      ¬ sameNameNoCase r.name "upper_edges_len".toList →
      ∀ (cmd : inla_cgeneric_cmd_tp) (theta : Option (D × D)),
        ∃ f, inla_cgeneric_gpgraph_alpha2_model kernel cmd theta d = Except.error f := by
    intro k r hk hr hne cmd theta
    have hmem : (k, "upper_edges_len") ∈ intNames := by
      rcases hk with h7 | h8
      · subst h7; decide
      · subst h8; decide
    have hviol : SchemaViolation d :=
      Or.inr (Or.inr (Or.inl ⟨k, "upper_edges_len", r, hmem, hr, hne⟩))
    obtain ⟨f, hf⟩ := extract_rejects_violation d hviol
    exact ⟨f, model_of_extract_error kernel cmd theta hf⟩
  refine ⟨?_, hrej, ?_⟩
  · intro e hv
    have acc := extractData_ok hv
    obtain ⟨r7, hr7, hname7, hl7⟩ := acc.rec_seven
    obtain ⟨r8, hr8, hname8, hl8⟩ := acc.rec_eight
    refine ⟨r7, r8, hr7, hr8, (strcasecmp_eq_zero_iff _ _).mp hname7,
      (strcasecmp_eq_zero_iff _ _).mp hname8, hl7, hl8, ?_⟩
    intro theta0 theta1
    have hl : (transformTheta (some (theta0, theta1)) e.parameterization).lkappa =
        some (if strcasecmp e.parameterization "matern".toList = 0
          then 0.5 * log 12.0 - theta1 else theta1) := rfl
    have hq := (model_of_extract kernel INLA_CGENERIC_Q (some (theta0, theta1)) hv).trans
      (dispatch_q_closed kernel theta0 theta1 e _ hl)
    exact ⟨_, _, hq, hl7, hl8⟩
  · intro r hr hlow
    apply hrej 7 r (Or.inl rfl) hr
    intro hup
    have hboth : sameNameNoCase "lower_edges_len".toList "upper_edges_len".toList := by
      unfold sameNameNoCase at hlow hup ⊢
      rw [← hlow, hup]
    exact absurd hboth (by decide)
/-- Witness of C13: the sample bundle is accepted and Q hands the first values of its
records 7 and 8 to the kernel; with record 7 renamed "lower_edges_len" it is rejected,
for GRAPH and for Q. -/
theorem records_seven_and_eight_named_upper_witness :
    extractData (sampleBundle RealD "spde") = Except.ok (sampleExtracted RealD "spde") ∧
    (∃ (args : KernelArgs RealD) (out : List RealD),
      inla_cgeneric_gpgraph_alpha2_model (constKernel (RealD.num 1)) INLA_CGENERIC_Q
          (some (RealD.num 0, RealD.num 0)) (sampleBundle RealD "spde") =
        Except.ok (Outcome.mk (some out) [args]) ∧
      args.lower_edges_len = 1 ∧ args.upper_edges_len = 1) ∧
    (withIntRecord RealD 7 (mkInts "lower_edges_len" [1])).ints[7]? =
      some (mkInts "lower_edges_len" [1]) ∧
    sameNameNoCase (mkInts "lower_edges_len" [1]).name "lower_edges_len".toList ∧
    (∃ f, inla_cgeneric_gpgraph_alpha2_model (constKernel (RealD.num 1)) INLA_CGENERIC_GRAPH
      none (withIntRecord RealD 7 (mkInts "lower_edges_len" [1])) = Except.error f) ∧
    (∃ f, inla_cgeneric_gpgraph_alpha2_model (constKernel (RealD.num 1)) INLA_CGENERIC_Q
      (some (RealD.num 0, RealD.num 0))
      (withIntRecord RealD 7 (mkInts "lower_edges_len" [1])) = Except.error f) := by
  have hacc := (records_seven_and_eight_named_upper (constKernel (RealD.num 1))
    (sampleBundle RealD "spde")).1 (sampleExtracted RealD "spde") (extract_sample RealD "spde")
  have hrej := (records_seven_and_eight_named_upper (constKernel (RealD.num 1))
    (withIntRecord RealD 7 (mkInts "lower_edges_len" [1]))).2.2
    (mkInts "lower_edges_len" [1]) rfl (by decide)
  obtain ⟨r7, r8, hr7, hr8, hn7, hn8, hl7, hl8, hq⟩ := hacc
  obtain ⟨args, out, hmodel, ha7, ha8⟩ := hq (RealD.num 0) (RealD.num 0)
  have e7 : r7 = mkInts "upper_edges_len" [1] := (Option.some.inj hr7).symm
  have e8 : r8 = mkInts "upper_edges_len" [1] := (Option.some.inj hr8).symm
  subst e7 e8
  exact ⟨extract_sample RealD "spde",
    ⟨args, out, hmodel, (Option.some.inj ha7).symm, (Option.some.inj ha8).symm⟩, rfl,
    by decide, hrej INLA_CGENERIC_GRAPH none,
    hrej INLA_CGENERIC_Q (some (RealD.num 0, RealD.num 0))⟩

/-- The transform of a non-NULL `theta` of real numbers, in real terms. -/
theorem transformTheta_real (t0 t1 : ℝ) (p : List Char) :
    transformTheta (some (RealD.num t0, RealD.num t1)) p =
      { lkappa := some (RealD.num (if sameNameNoCase p "matern".toList
          then 0.5 * Real.log 12 - t1 else t1)),
        lsigma := some (RealD.num t0),
        kappa := some (RealD.num (Real.exp (if sameNameNoCase p "matern".toList
          then 0.5 * Real.log 12 - t1 else t1))),
        sigma := some (RealD.num (Real.exp t0)),
        tau := some (RealD.num (1 / Real.exp t0)) } := by
  have h12 : (0 : ℝ) < 12.0 := by norm_num
  have hne : Real.exp t0 ≠ 0 := Real.exp_ne_zero t0
  rw [transformTheta_some]
  by_cases hm : sameNameNoCase p "matern".toList
  · simp only [hm, if_true, RealD.sub_def, RealD.mul_def, RealD.log_def, RealD.exp_def,
      RealD.div_def, RealD.ofScientific_def, RealD.logD, RealD.expD, RealD.divD, RealD.lift₂,
      h12, hne, if_false]
    norm_num
  · simp only [hm, if_false, RealD.exp_def, RealD.div_def, RealD.ofScientific_def,
      RealD.expD, RealD.divD, hne]
    norm_num

/-- The discarded intermediate `log 2 - theta[1]` differs from the value assigned last. -/
theorem log_two_lt_half_log_twelve : Real.log 2 < 0.5 * Real.log 12 := by
  have h4 : Real.log 4 = 2 * Real.log 2 := by
    have : (4 : ℝ) = 2 ^ 2 := by norm_num
    rw [this, Real.log_pow]
    norm_num
  have hlt : Real.log 4 < Real.log 12 := Real.log_lt_log (by norm_num) (by norm_num)
  linarith

/-- C14 (counterexample): "MATERN" is a string other than "matern", and with it
`lkappa` at `theta = [0, 0]` is `0.5 * log 12`, not `theta[1] = 0`; so it is not true
that every string other than "matern" gives `lkappa = theta[1]`. -/
theorem switch_other_string_counterexample :
    "MATERN".toList ≠ "matern".toList ∧
    (transformTheta (some (RealD.num 0, RealD.num 0)) "MATERN".toList).lkappa =
      some (RealD.num (0.5 * Real.log 12 - 0)) ∧
    (transformTheta (some (RealD.num 0, RealD.num 0)) "MATERN".toList).lkappa ≠
      some (RealD.num 0) ∧
    ¬ (∀ (p : List Char) (t0 t1 : ℝ), p ≠ "matern".toList →
      (transformTheta (some (RealD.num t0, RealD.num t1)) p).lkappa =
        some (RealD.num t1)) := by
  have hm : sameNameNoCase "MATERN".toList "matern".toList := by decide
  have hval : (transformTheta (some (RealD.num 0, RealD.num 0)) "MATERN".toList).lkappa =
      some (RealD.num (0.5 * Real.log 12 - 0)) := by
    rw [transformTheta_real, if_pos hm]
  have hpos : (0 : ℝ) < 0.5 * Real.log 12 - 0 := by
    have h2 : (0 : ℝ) < Real.log 2 := Real.log_pos (by norm_num)
    have := log_two_lt_half_log_twelve
    linarith
  have hne : (transformTheta (some (RealD.num 0, RealD.num 0)) "MATERN".toList).lkappa ≠
      some (RealD.num 0) := by
    rw [hval]
    intro h
    have h' : (0.5 * Real.log 12 - 0 : ℝ) = 0 := by
      simpa using h
    linarith
  exact ⟨by decide, hval, hne, fun hall => hne (hall "MATERN".toList 0 0 (by decide))⟩

/-- C14 (amended): for every non-NULL `theta` of real numbers, a parameterization equal
to "matern" under case-insensitive comparison (the string "matern" itself among them)
gives `lkappa = 0.5 * log 12 - theta[1]`, which is not the discarded intermediate
`log 2 - theta[1]`; a parameterization that is not case-insensitively equal to "matern"
gives `lkappa = theta[1]`. -/
theorem switch_on_parameterization (t0 t1 : ℝ) (p : List Char) :
    (p = "matern".toList →
      (transformTheta (some (RealD.num t0, RealD.num t1)) p).lkappa =
        some (RealD.num (0.5 * Real.log 12 - t1))) ∧
    (sameNameNoCase p "matern".toList →
      (transformTheta (some (RealD.num t0, RealD.num t1)) p).lkappa =
        some (RealD.num (0.5 * Real.log 12 - t1)) ∧
      (transformTheta (some (RealD.num t0, RealD.num t1)) p).lkappa ≠
        some (RealD.num (Real.log 2 - t1))) ∧
    (¬ sameNameNoCase p "matern".toList →
      (transformTheta (some (RealD.num t0, RealD.num t1)) p).lkappa =
        some (RealD.num t1)) := by
  have hsame : sameNameNoCase p "matern".toList →
      (transformTheta (some (RealD.num t0, RealD.num t1)) p).lkappa =
        some (RealD.num (0.5 * Real.log 12 - t1)) := by
    intro hm
    rw [transformTheta_real, if_pos hm]
  refine ⟨?_, ?_, ?_⟩
  · intro hp
    apply hsame
    rw [hp]
    decide
  · intro hm
    refine ⟨hsame hm, ?_⟩
    rw [hsame hm]
    intro h
    have h' : (0.5 * Real.log 12 - t1 : ℝ) = Real.log 2 - t1 := by
      simpa using h
    have := log_two_lt_half_log_twelve
    linarith
  · intro hm
    rw [transformTheta_real, if_neg hm]

/-- Witness of C14 (amended): "matern" and "Matern" at `theta = [0, 1]` give
`lkappa = 0.5 * log 12 - 1`, and "spde" gives `lkappa = 1`. -/
theorem switch_on_parameterization_witness :
    (transformTheta (some (RealD.num 0, RealD.num 1)) "matern".toList).lkappa =
      some (RealD.num (0.5 * Real.log 12 - 1)) ∧
    sameNameNoCase "Matern".toList "matern".toList ∧
    (transformTheta (some (RealD.num 0, RealD.num 1)) "Matern".toList).lkappa =
      some (RealD.num (0.5 * Real.log 12 - 1)) ∧
    ¬ sameNameNoCase "spde".toList "matern".toList ∧
    (transformTheta (some (RealD.num 0, RealD.num 1)) "spde".toList).lkappa =
      some (RealD.num 1) :=
  ⟨(switch_on_parameterization 0 1 "matern".toList).1 rfl, by decide,
    ((switch_on_parameterization 0 1 "Matern".toList).2.1 (by decide)).1, by decide,
    (switch_on_parameterization 0 1 "spde".toList).2.2 (by decide)⟩

/-- C15 (counterexample): on the sample bundle, which the extractor accepts, the
command value 99, which is none of the eight named commands, does not fail: the call
returns NULL to its caller. -/
theorem unrecognized_command_counterexample :
    extractData (sampleBundle RealD "spde") = Except.ok (sampleExtracted RealD "spde") ∧
    inla_cgeneric_gpgraph_alpha2_model (constKernel RealD.nan)
        (inla_cgeneric_cmd_tp.other 99) none (sampleBundle RealD "spde") =
      Except.ok (Outcome.mk none []) ∧
    ¬ ∃ f, inla_cgeneric_gpgraph_alpha2_model (constKernel RealD.nan)
        (inla_cgeneric_cmd_tp.other 99) none (sampleBundle RealD "spde") =
      Except.error f := by
  have h : inla_cgeneric_gpgraph_alpha2_model (constKernel RealD.nan)
      (inla_cgeneric_cmd_tp.other 99) none (sampleBundle RealD "spde") =
      Except.ok (Outcome.mk none []) := by
    rw [model_of_extract _ _ _ (extract_sample RealD "spde")]
    rfl
  refine ⟨extract_sample RealD "spde", h, ?_⟩
  rintro ⟨f, hf⟩
  rw [h] at hf
  cases hf

/-- C15 (amended): on a bundle that the extractor accepts, and for every `theta`, the
sentinel command VOID makes the entry point fail fatally (the assertion of line 120),
while a command value that is none of the eight named commands is no error: the
`default` label of line 192 returns NULL to the caller. -/
theorem only_void_is_fatal {D : Type} [CDouble D] (kernel : Kernel D)
    (theta : Option (D × D)) (d : inla_cgeneric_data_tp D) (e : Extracted D)
    (hv : extractData d = Except.ok e) :
    inla_cgeneric_gpgraph_alpha2_model kernel INLA_CGENERIC_VOID theta d =
        Except.error Fault.assertion ∧
    ∀ code : Int,
      inla_cgeneric_gpgraph_alpha2_model kernel (inla_cgeneric_cmd_tp.other code) theta d =
          Except.ok (Outcome.mk none []) ∧
      ¬ ∃ f, inla_cgeneric_gpgraph_alpha2_model kernel (inla_cgeneric_cmd_tp.other code)
          theta d = Except.error f := by
  refine ⟨?_, fun code => ?_⟩
  · rw [model_of_extract kernel _ _ hv]
    simp [dispatch, assert, bind, Except.bind]
  · have h : inla_cgeneric_gpgraph_alpha2_model kernel (inla_cgeneric_cmd_tp.other code)
        theta d = Except.ok (Outcome.mk none []) := by
      rw [model_of_extract kernel _ _ hv]
      rfl
    refine ⟨h, ?_⟩
    rintro ⟨f, hf⟩
    rw [h] at hf
    cases hf

/-- Witness of C15 (amended): the sample bundle with `theta = [0, 0]`; VOID fails and the
command value 8 returns NULL. -/
theorem only_void_is_fatal_witness :
    extractData (sampleBundle RealD "spde") = Except.ok (sampleExtracted RealD "spde") ∧
    inla_cgeneric_gpgraph_alpha2_model (constKernel RealD.nan) INLA_CGENERIC_VOID
        (some (RealD.num 0, RealD.num 0)) (sampleBundle RealD "spde") =
      Except.error Fault.assertion ∧
    inla_cgeneric_gpgraph_alpha2_model (constKernel RealD.nan)
        (inla_cgeneric_cmd_tp.other 8) (some (RealD.num 0, RealD.num 0))
        (sampleBundle RealD "spde") =
      Except.ok (Outcome.mk none []) :=
  ⟨extract_sample RealD "spde",
    (only_void_is_fatal (constKernel RealD.nan) (some (RealD.num 0, RealD.num 0))
      (sampleBundle RealD "spde") (sampleExtracted RealD "spde")
      (extract_sample RealD "spde")).1,
    ((only_void_is_fatal (constKernel RealD.nan) (some (RealD.num 0, RealD.num 0))
      (sampleBundle RealD "spde") (sampleExtracted RealD "spde")
      (extract_sample RealD "spde")).2 8).1⟩

/-- The literal `0.0` on the carrier `RealD`. -/
theorem RealD.lit_zero : (0.0 : RealD) = RealD.num 0 := by
  rw [RealD.ofScientific_def]; norm_num

/-- The literal `1.0` on the carrier `RealD`. -/
theorem RealD.lit_one : (1.0 : RealD) = RealD.num 1 := by
  rw [RealD.ofScientific_def]; norm_num

/-- The LOG_PRIOR answer for real arguments and positive standard deviations, as a
real number. -/
theorem model_log_prior_real (kernel : Kernel RealD) (t0 t1 m1 s1 m2 s2 : ℝ)
    (d : inla_cgeneric_data_tp RealD) (e : Extracted RealD)
    (hv : extractData d = Except.ok e)
    (hm1 : e.prior_theta_meanlog = RealD.num m1) (hs1 : e.prior_theta_sdlog = RealD.num s1)
    (hm2 : e.prior_sigma_meanlog = RealD.num m2) (hs2 : e.prior_sigma_sdlog = RealD.num s2)
    (hp1 : 0 < s1) (hp2 : 0 < s2) :
    inla_cgeneric_gpgraph_alpha2_model kernel INLA_CGENERIC_LOG_PRIOR
        (some (RealD.num t0, RealD.num t1)) d =
      Except.ok (Outcome.mk
        (some [RealD.num (Normal_logpdf t1 m1 s1 + Normal_logpdf t0 m2 s2)]) []) := by
  rw [model_of_extract kernel _ _ hv, dispatch_log_prior, hm1, hs1, hm2, hs2]
  simp only [Normal_logpdfD, hp1, hp2, if_true, RealD.add_def, RealD.lift₂]

/-- The normal log-density is largest at its mean, and only there. -/
theorem Normal_logpdf_le (x m s : ℝ) (hs : 0 < s) :
    Normal_logpdf m m s = -Real.log s - 0.5 * Real.log (2 * Real.pi) ∧
    Normal_logpdf x m s ≤ Normal_logpdf m m s ∧
    (x ≠ m → Normal_logpdf x m s < Normal_logpdf m m s) := by
  have hsq : 0 ≤ ((x - m) / s) ^ 2 := sq_nonneg _
  refine ⟨?_, ?_, ?_⟩
  · simp only [Normal_logpdf, sub_self, zero_div]
    ring
  · simp only [Normal_logpdf, sub_self, zero_div]
    nlinarith
  · intro hne
    have hx : x - m ≠ 0 := sub_ne_zero.mpr hne
    have hpos : 0 < ((x - m) / s) ^ 2 := by
      have : (x - m) / s ≠ 0 := div_ne_zero hx (ne_of_gt hs)
      positivity
    simp only [Normal_logpdf, sub_self, zero_div]
    nlinarith

/-- C16: on a bundle that the extractor accepts and whose two prior standard deviations
are positive reals, the LOG_PRIOR value as a function of a real `theta` has its unique
maximum at `theta = [prior_sigma_meanlog, prior_theta_meanlog]`: there it is
`-log prior_theta_sdlog - log prior_sigma_sdlog - log (2 * pi)`, and at every other
`theta` it is strictly smaller. -/
theorem log_prior_unique_maximum (kernel : Kernel RealD) (m1 s1 m2 s2 : ℝ)
    (d : inla_cgeneric_data_tp RealD) (e : Extracted RealD)
    (hv : extractData d = Except.ok e)
    (hm1 : e.prior_theta_meanlog = RealD.num m1) (hs1 : e.prior_theta_sdlog = RealD.num s1)
    (hm2 : e.prior_sigma_meanlog = RealD.num m2) (hs2 : e.prior_sigma_sdlog = RealD.num s2)
    (hp1 : 0 < s1) (hp2 : 0 < s2) :
    inla_cgeneric_gpgraph_alpha2_model kernel INLA_CGENERIC_LOG_PRIOR
        (some (RealD.num m2, RealD.num m1)) d =
      Except.ok (Outcome.mk
        (some [RealD.num (-Real.log s1 - Real.log s2 - Real.log (2 * Real.pi))]) []) ∧
    ∀ t0 t1 : ℝ, ∃ v : ℝ,
      inla_cgeneric_gpgraph_alpha2_model kernel INLA_CGENERIC_LOG_PRIOR
          (some (RealD.num t0, RealD.num t1)) d =
        Except.ok (Outcome.mk (some [RealD.num v]) []) ∧
      v ≤ -Real.log s1 - Real.log s2 - Real.log (2 * Real.pi) ∧
      ((t0 ≠ m2 ∨ t1 ≠ m1) → v < -Real.log s1 - Real.log s2 - Real.log (2 * Real.pi)) := by
  have hmax : Normal_logpdf m1 m1 s1 + Normal_logpdf m2 m2 s2 =
      -Real.log s1 - Real.log s2 - Real.log (2 * Real.pi) := by
    rw [(Normal_logpdf_le m1 m1 s1 hp1).1, (Normal_logpdf_le m2 m2 s2 hp2).1]
    ring
  refine ⟨?_, fun t0 t1 => ?_⟩
  · rw [model_log_prior_real kernel m2 m1 m1 s1 m2 s2 d e hv hm1 hs1 hm2 hs2 hp1 hp2, hmax]
  · refine ⟨Normal_logpdf t1 m1 s1 + Normal_logpdf t0 m2 s2,
      model_log_prior_real kernel t0 t1 m1 s1 m2 s2 d e hv hm1 hs1 hm2 hs2 hp1 hp2, ?_, ?_⟩
    · rw [← hmax]
      exact add_le_add (Normal_logpdf_le t1 m1 s1 hp1).2.1 (Normal_logpdf_le t0 m2 s2 hp2).2.1
    · intro hne
      rw [← hmax]
      rcases hne with h0 | h1
      · exact add_lt_add_of_le_of_lt (Normal_logpdf_le t1 m1 s1 hp1).2.1
          ((Normal_logpdf_le t0 m2 s2 hp2).2.2 h0)
      · exact add_lt_add_of_lt_of_le ((Normal_logpdf_le t1 m1 s1 hp1).2.2 h1)
          (Normal_logpdf_le t0 m2 s2 hp2).2.1
/-- Witness of C16: the sample bundle (both priors standard normal): the value at
`theta = [0, 0]` is `-log 1 - log 1 - log (2 * pi)` and the value at `theta = [1, 0]`
is strictly smaller. -/
theorem log_prior_unique_maximum_witness :
    extractData (sampleBundle RealD "spde") = Except.ok (sampleExtracted RealD "spde") ∧
    (sampleExtracted RealD "spde").prior_theta_sdlog = RealD.num 1 ∧
    (sampleExtracted RealD "spde").prior_sigma_sdlog = RealD.num 1 ∧
    (0 : ℝ) < 1 ∧
    inla_cgeneric_gpgraph_alpha2_model (constKernel RealD.nan) INLA_CGENERIC_LOG_PRIOR
        (some (RealD.num 0, RealD.num 0)) (sampleBundle RealD "spde") =
      Except.ok (Outcome.mk
        (some [RealD.num (-Real.log 1 - Real.log 1 - Real.log (2 * Real.pi))]) []) ∧
    ∃ v : ℝ,
      inla_cgeneric_gpgraph_alpha2_model (constKernel RealD.nan) INLA_CGENERIC_LOG_PRIOR
          (some (RealD.num 1, RealD.num 0)) (sampleBundle RealD "spde") =
        Except.ok (Outcome.mk (some [RealD.num v]) []) ∧
      v < -Real.log 1 - Real.log 1 - Real.log (2 * Real.pi) := by
  have hmax := log_prior_unique_maximum (constKernel RealD.nan) 0 1 0 1
    (sampleBundle RealD "spde") (sampleExtracted RealD "spde") (extract_sample RealD "spde")
    RealD.lit_zero RealD.lit_one RealD.lit_zero RealD.lit_one one_pos one_pos
  obtain ⟨v, hv, hle, hlt⟩ := hmax.2 1 0
  exact ⟨extract_sample RealD "spde", RealD.lit_one, RealD.lit_one, one_pos, hmax.1,
    v, hv, hlt (Or.inl one_ne_zero)⟩

/-- The square root of 12 is the exponential of half the logarithm of 12. -/
theorem exp_half_log_twelve : Real.exp (0.5 * Real.log 12) = Real.sqrt 12 := by
  have hpos : (0 : ℝ) < Real.sqrt 12 := Real.sqrt_pos.mpr (by norm_num)
  have hlog : Real.log (Real.sqrt 12) = Real.log 12 / 2 := Real.log_sqrt (by norm_num)
  have h : (0.5 : ℝ) * Real.log 12 = Real.log (Real.sqrt 12) := by
    rw [hlog]; ring
  rw [h, Real.exp_log hpos]

/-- C17: for a non-NULL `theta` of real numbers, under a parameterization that equals
"matern" under case-insensitive comparison `kappa * exp theta[1] = sqrt 12`, that is
`kappa = sqrt 12 / exp theta[1]`, and `kappa` is strictly decreasing in `theta[1]`;
under any other parameterization `kappa = exp theta[1]`, strictly increasing in
`theta[1]`. -/
theorem kappa_against_range (t0 t1 : ℝ) (p : List Char) :
    (sameNameNoCase p "matern".toList →
      ∃ k : ℝ, (transformTheta (some (RealD.num t0, RealD.num t1)) p).kappa =
          some (RealD.num k) ∧
        k * Real.exp t1 = Real.sqrt 12 ∧ k = Real.sqrt 12 / Real.exp t1 ∧
        ∀ u1 ku : ℝ, t1 < u1 →
          (transformTheta (some (RealD.num t0, RealD.num u1)) p).kappa =
            some (RealD.num ku) → ku < k) ∧
    (¬ sameNameNoCase p "matern".toList →
      (transformTheta (some (RealD.num t0, RealD.num t1)) p).kappa =
        some (RealD.num (Real.exp t1)) ∧
      ∀ u1 ku : ℝ, t1 < u1 →
        (transformTheta (some (RealD.num t0, RealD.num u1)) p).kappa =
          some (RealD.num ku) → Real.exp t1 < ku) := by
  refine ⟨fun hm => ?_, fun hm => ?_⟩
  · have hk : ∀ x : ℝ, (transformTheta (some (RealD.num t0, RealD.num x)) p).kappa =
        some (RealD.num (Real.exp (0.5 * Real.log 12 - x))) := by
      intro x
      rw [transformTheta_real, if_pos hm]
    have hprod : Real.exp (0.5 * Real.log 12 - t1) * Real.exp t1 = Real.sqrt 12 := by
      rw [← Real.exp_add, sub_add_cancel, exp_half_log_twelve]
    refine ⟨_, hk t1, hprod, ?_, ?_⟩
    · rw [← hprod]
      field_simp
    · intro u1 ku hlt hu
      rw [hk u1] at hu
      have huk : Real.exp (0.5 * Real.log 12 - u1) = ku := by
        simpa using hu
      rw [← huk]
      exact Real.exp_lt_exp.mpr (by linarith)
  · have hk : ∀ x : ℝ, (transformTheta (some (RealD.num t0, RealD.num x)) p).kappa =
        some (RealD.num (Real.exp x)) := by
      intro x
      rw [transformTheta_real, if_neg hm]
    refine ⟨hk t1, ?_⟩
    intro u1 ku hlt hu
    rw [hk u1] at hu
    have huk : Real.exp u1 = ku := by
      simpa using hu
    rw [← huk]
    exact Real.exp_lt_exp.mpr hlt

/-- Witness of C17: under "matern", `kappa * exp 0 = sqrt 12` at `theta = [0, 0]`;
under "spde", `kappa = exp 0`. -/
theorem kappa_against_range_witness :
    sameNameNoCase "matern".toList "matern".toList ∧
    (∃ k : ℝ, (transformTheta (some (RealD.num 0, RealD.num 0)) "matern".toList).kappa =
        some (RealD.num k) ∧ k * Real.exp 0 = Real.sqrt 12) ∧
    ¬ sameNameNoCase "spde".toList "matern".toList ∧
    (transformTheta (some (RealD.num 0, RealD.num 0)) "spde".toList).kappa =
      some (RealD.num (Real.exp 0)) := by
  obtain ⟨k, hk, hprod, hdiv, hdec⟩ :=
    (kappa_against_range 0 0 "matern".toList).1 (by decide)
  exact ⟨by decide, ⟨k, hk, hprod⟩, by decide,
    ((kappa_against_range 0 0 "spde".toList).2 (by decide)).1⟩

/-- C19: for every command and every `theta`, the entry point also fails on a bundle
whose dimension `n` (the first value of integer record 0) is not strictly positive, and
on a bundle whose records `prec_graph_i` and `prec_graph_j` (integer records 2 and 3)
differ in length; so every sequence that GRAPH returns is `[N, M, i.., j..]` with
`N >= 1` and as many row indices as column indices. -/
theorem extractor_rejects_dimension_and_lengths {D : Type} [CDouble D] (kernel : Kernel D)
    (d : inla_cgeneric_data_tp D) :
    (∀ (r : IntVec) (n : Int), d.ints[0]? = some r → r.ints[0]? = some n → n ≤ 0 →
      ∀ (cmd : inla_cgeneric_cmd_tp) (theta : Option (D × D)),
        ∃ f, inla_cgeneric_gpgraph_alpha2_model kernel cmd theta d = Except.error f) ∧
    (∀ gi gj : IntVec, d.ints[2]? = some gi → d.ints[3]? = some gj →
      gi.ints.length ≠ gj.ints.length →
      ∀ (cmd : inla_cgeneric_cmd_tp) (theta : Option (D × D)),
        ∃ f, inla_cgeneric_gpgraph_alpha2_model kernel cmd theta d = Except.error f) ∧
    (∀ (theta : Option (D × D)) (o : Outcome D),
      inla_cgeneric_gpgraph_alpha2_model kernel INLA_CGENERIC_GRAPH theta d = Except.ok o →
      ∃ (N : Int) (rows cols : List Int), 1 ≤ N ∧ rows.length = cols.length ∧
        o.ret = some (((N : Int) : D) :: (((rows.length : Nat) : Int) : D) ::
          (rows.map (fun v => ((v : Int) : D)) ++ cols.map (fun v => ((v : Int) : D))))) := by
  have hfail : (∀ e : Extracted D, extractData d ≠ Except.ok e) →
      ∀ (cmd : inla_cgeneric_cmd_tp) (theta : Option (D × D)),
        ∃ f, inla_cgeneric_gpgraph_alpha2_model kernel cmd theta d = Except.error f := by
    intro hno cmd theta
    cases hx : extractData d with
    | ok e => exact absurd hx (hno e)
    | error f => exact ⟨f, model_of_extract_error kernel cmd theta hx⟩
  refine ⟨?_, ?_, ?_⟩
  · intro r n hr hn hle
    apply hfail
    intro e hv
    have acc := extractData_ok hv
    obtain ⟨r0, hr0, hname, hN⟩ := acc.rec_n
    rw [hr0] at hr
    cases hr
    rw [hN] at hn
    cases hn
    exact absurd acc.N_pos (not_lt.mpr hle)
  · intro gi gj hgi hgj hne
    apply hfail
    intro e hv
    have acc := extractData_ok hv
    rw [acc.rec_graph_i] at hgi
    rw [acc.rec_graph_j] at hgj
    cases hgi
    cases hgj
    exact hne (acc.M_graph_i.symm.trans acc.M_graph_j)
  · intro theta o ho
    obtain ⟨e, hv⟩ := extract_ok_of_model_ok kernel _ theta ho
    have acc := extractData_ok hv
    have hg := (model_of_extract kernel INLA_CGENERIC_GRAPH theta hv).trans
      (dispatch_graph kernel theta e _ acc.M_graph_i.symm acc.M_graph_j.symm)
    rw [hg] at ho
    cases ho
    refine ⟨e.N, e.graph_i.ints, e.graph_j.ints, ?_, ?_, ?_⟩
    · have := acc.N_pos
      omega
    · exact acc.M_graph_i.symm.trans acc.M_graph_j
    · rw [← acc.M_graph_i]

/-- Witness of C19: the sample bundle with `n = 0`, and the sample bundle with a
`prec_graph_j` of two entries against three of `prec_graph_i`, are rejected; the GRAPH
answer of the sample bundle starts with `N = 2 >= 1`. -/
theorem extractor_rejects_dimension_and_lengths_witness :
    (∃ f, inla_cgeneric_gpgraph_alpha2_model (constKernel RealD.nan) INLA_CGENERIC_GRAPH
      none (withIntRecord RealD 0 (mkInts "n" [0])) = Except.error f) ∧
    (∃ f, inla_cgeneric_gpgraph_alpha2_model (constKernel RealD.nan) INLA_CGENERIC_MU
      none (withIntRecord RealD 3 (mkInts "prec_graph_j" [0, 1])) = Except.error f) ∧
    (∃ (N : Int) (rows cols : List Int), 1 ≤ N ∧ rows.length = cols.length ∧
      some [((2 : Int) : RealD), ((3 : Int) : RealD), ((0 : Int) : RealD),
        ((0 : Int) : RealD), ((1 : Int) : RealD), ((0 : Int) : RealD), ((1 : Int) : RealD),
        ((1 : Int) : RealD)] =
      some (((N : Int) : RealD) :: (((rows.length : Nat) : Int) : RealD) ::
        (rows.map (fun v => ((v : Int) : RealD)) ++
          cols.map (fun v => ((v : Int) : RealD))))) := by
  refine ⟨?_, ?_, ?_⟩
  · exact (extractor_rejects_dimension_and_lengths (constKernel RealD.nan)
      (withIntRecord RealD 0 (mkInts "n" [0]))).1 (mkInts "n" [0]) 0 rfl rfl (le_refl 0)
      INLA_CGENERIC_GRAPH none
  · exact (extractor_rejects_dimension_and_lengths (constKernel RealD.nan)
      (withIntRecord RealD 3 (mkInts "prec_graph_j" [0, 1]))).2.1
      (mkInts "prec_graph_i" [0, 0, 1]) (mkInts "prec_graph_j" [0, 1]) rfl rfl (by decide)
      INLA_CGENERIC_MU none
  · have hg : inla_cgeneric_gpgraph_alpha2_model (constKernel RealD.nan) INLA_CGENERIC_GRAPH
        none (sampleBundle RealD "spde") =
        Except.ok (Outcome.mk (some [((2 : Int) : RealD), ((3 : Int) : RealD),
          ((0 : Int) : RealD), ((0 : Int) : RealD), ((1 : Int) : RealD), ((0 : Int) : RealD),
          ((1 : Int) : RealD), ((1 : Int) : RealD)]) []) := by
      rw [model_of_extract _ _ _ (extract_sample RealD "spde"), dispatch_graph _ _ _ _ rfl rfl]
      rfl
    exact (extractor_rejects_dimension_and_lengths (constKernel RealD.nan)
      (sampleBundle RealD "spde")).2.2 none _ hg

/-! ## The transform at the range limits of a double -/

namespace RangeD

theorem sub_eq_subR (a b : RangeD) : a - b = subR a b := rfl
theorem mul_eq_mulR (a b : RangeD) : a * b = mulR a b := rfl
theorem div_eq_divR (a b : RangeD) : a / b = divR a b := rfl
theorem log_eq_logR (a : RangeD) : log a = logR a := rfl
theorem exp_eq_expR (a : RangeD) : exp a = expR a := rfl
theorem lit_eq_num (m : Nat) (s : Bool) (e : Nat) :
    (OfScientific.ofScientific m s e : RangeD) = num (OfScientific.ofScientific m s e) := rfl

/-- A power of two is the exponential of a multiple of `log 2`. -/
theorem two_pow_eq_exp (n : Nat) : (2 : ℝ) ^ n = Real.exp (n * Real.log 2) := by
  rw [Real.exp_nat_mul, Real.exp_log (by norm_num)]

/-- The bound of underflow as an exponential. -/
theorem underflowBound_eq : underflowBound = Real.exp (-(1075 * Real.log 2)) := by
  have h := two_pow_eq_exp 1075
  rw [underflowBound, Real.exp_neg, one_div]
  rw [h]
  norm_num

/-- The exponential of a real number between -706 and 706 is within the range of a
double. -/
theorem exp_in_range (x : ℝ) (hlo : -706 ≤ x) (hhi : x ≤ 706) :
    underflowBound < |Real.exp x| ∧ |Real.exp x| < overflowBound := by
  have hl1 := Real.log_two_gt_d9
  have hl2 := Real.log_two_lt_d9
  rw [abs_of_pos (Real.exp_pos x)]
  constructor
  · rw [underflowBound_eq]
    apply Real.exp_lt_exp.mpr
    linarith
  · have h1023 : Real.exp x < (2 : ℝ) ^ 1023 := by
      have h := two_pow_eq_exp 1023
      rw [h]
      apply Real.exp_lt_exp.mpr
      push_cast
      linarith
    have hle : (2 : ℝ) ^ 1023 ≤ overflowBound := by
      unfold overflowBound
      norm_num
    linarith

/-- Within the range of a double a result is itself. -/
theorem rnd_of_in_range (r : ℝ) (h1 : underflowBound < |r|) (h2 : |r| < overflowBound) :
    rnd r = num r := by
  simp only [rnd, sat, not_le.mpr h1, not_le.mpr h2, if_false]

/-- The exponential of -800 underflows. -/
theorem exp_underflows : expR (num (-800)) = num 0 := by
  have hl2 := Real.log_two_lt_d9
  have h : |Real.exp (-800)| ≤ underflowBound := by
    rw [abs_of_pos (Real.exp_pos _), underflowBound_eq]
    apply Real.exp_le_exp.mpr
    linarith
  simp only [expR, rnd, h, if_true]

end RangeD

/-- The transform of a non-NULL `theta` of real numbers between -700 and 700 on the
carrier `RangeD`: no result leaves the range of a double. -/
theorem transformTheta_in_range (t0 t1 : ℝ) (p : List Char) (h0lo : -700 ≤ t0)
    (h0hi : t0 ≤ 700) (h1lo : -700 ≤ t1) (h1hi : t1 ≤ 700) :
    ∃ lk : ℝ, -706 ≤ lk ∧ lk ≤ 706 ∧
      transformTheta (some (RangeD.num t0, RangeD.num t1)) p =
        { lkappa := some (RangeD.num lk), lsigma := some (RangeD.num t0),
          kappa := some (RangeD.num (Real.exp lk)),
          sigma := some (RangeD.num (Real.exp t0)),
          tau := some (RangeD.num (1 / Real.exp t0)) } := by
  have hl1 := Real.log_two_gt_d9
  have hlog12 : Real.log 12 ≤ 11 := by
    have := Real.log_le_sub_one_of_pos (show (0 : ℝ) < 12 by norm_num)
    linarith
  have hlog12pos : Real.log 2 < Real.log 12 := Real.log_lt_log (by norm_num) (by norm_num)
  have h12 : (0 : ℝ) < 12.0 := by norm_num
  have hne : Real.exp t0 ≠ 0 := Real.exp_ne_zero t0
  have hsig : RangeD.rnd (Real.exp t0) = RangeD.num (Real.exp t0) :=
    RangeD.rnd_of_in_range _ (RangeD.exp_in_range t0 (by linarith) (by linarith)).1
      (RangeD.exp_in_range t0 (by linarith) (by linarith)).2
  have htau : RangeD.rnd (1 / Real.exp t0) = RangeD.num (1 / Real.exp t0) := by
    have he : 1 / Real.exp t0 = Real.exp (-t0) := by rw [Real.exp_neg, one_div]
    rw [he]
    exact RangeD.rnd_of_in_range _ (RangeD.exp_in_range (-t0) (by linarith) (by linarith)).1
      (RangeD.exp_in_range (-t0) (by linarith) (by linarith)).2
  have hkap : ∀ lk : ℝ, -706 ≤ lk → lk ≤ 706 →
      RangeD.rnd (Real.exp lk) = RangeD.num (Real.exp lk) := fun lk hlo hhi =>
    RangeD.rnd_of_in_range _ (RangeD.exp_in_range lk hlo hhi).1
      (RangeD.exp_in_range lk hlo hhi).2
  rw [transformTheta_some]
  by_cases hm : sameNameNoCase p "matern".toList
  · have hhalf : RangeD.rnd (0.5 * Real.log 12.0) = RangeD.num (0.5 * Real.log 12) := by
      have e12 : (12.0 : ℝ) = 12 := by norm_num
      rw [e12]
      apply RangeD.rnd_of_in_range
      · have hu : RangeD.underflowBound < 0.3 := by
          unfold RangeD.underflowBound
          norm_num
        rw [abs_of_pos (by linarith)]
        linarith
      · have ho : (6 : ℝ) < RangeD.overflowBound := by
          unfold RangeD.overflowBound
          norm_num
        rw [abs_of_pos (by linarith)]
        linarith
    have hsub : RangeD.sat (0.5 * Real.log 12 + -t1) =
        RangeD.num (0.5 * Real.log 12 + -t1) := by
      have ho : (706 : ℝ) < RangeD.overflowBound := by
        unfold RangeD.overflowBound
        norm_num
      have habs : |0.5 * Real.log 12 + -t1| ≤ 706 := by
        rw [abs_le]
        constructor <;> linarith
      simp only [RangeD.sat, not_le.mpr (lt_of_le_of_lt habs ho), if_false]
    refine ⟨0.5 * Real.log 12 + -t1, by linarith, by linarith, ?_⟩
    simp only [hm, if_true, RangeD.sub_eq_subR, RangeD.mul_eq_mulR, RangeD.log_eq_logR,
      RangeD.exp_eq_expR, RangeD.div_eq_divR, RangeD.lit_eq_num, RangeD.logR, RangeD.expR,
      RangeD.divR, RangeD.mulR, RangeD.subR, RangeD.addR, RangeD.negR, h12, hne, if_false,
      hhalf, hsub, hsig, hkap _ (show -706 ≤ 0.5 * Real.log 12 + -t1 by linarith)
        (show 0.5 * Real.log 12 + -t1 ≤ 706 by linarith)]
    have e1 : (1.0 : ℝ) = 1 := by norm_num
    rw [e1, htau]
  · refine ⟨t1, by linarith, by linarith, ?_⟩
    simp only [hm, if_false, RangeD.exp_eq_expR, RangeD.div_eq_divR, RangeD.lit_eq_num,
      RangeD.expR, RangeD.divR, hne, hsig, hkap t1 (by linarith) (by linarith)]
    have e1 : (1.0 : ℝ) = 1 := by norm_num
    rw [e1, htau]
/-- C18 (counterexample): on doubles `exp (-800)` underflows to 0, so at
`theta = [-800, 0]` the transform gives `sigma = 0` and line 111 divides by zero,
`tau = 1.0 / 0 = +inf`: `sigma` and `tau` are not positive reals with product 1. -/
theorem division_by_zero_counterexample :
    (transformTheta (some (RangeD.num (-800), RangeD.num 0)) "spde".toList).sigma =
      some (RangeD.num 0) ∧
    (transformTheta (some (RangeD.num (-800), RangeD.num 0)) "spde".toList).tau =
      some (RangeD.inf false) ∧
    ¬ ∃ sigma tau : ℝ,
      (transformTheta (some (RangeD.num (-800), RangeD.num 0)) "spde".toList).sigma =
        some (RangeD.num sigma) ∧
      (transformTheta (some (RangeD.num (-800), RangeD.num 0)) "spde".toList).tau =
        some (RangeD.num tau) ∧
      0 < sigma ∧ 0 < tau ∧ sigma * tau = 1 := by
  have hm : ¬ sameNameNoCase "spde".toList "matern".toList := by decide
  have hsig : (transformTheta (some (RangeD.num (-800), RangeD.num 0)) "spde".toList).sigma =
      some (RangeD.num 0) := by
    rw [transformTheta_some]
    simp only [RangeD.exp_eq_expR, RangeD.exp_underflows]
  have htau : (transformTheta (some (RangeD.num (-800), RangeD.num 0)) "spde".toList).tau =
      some (RangeD.inf false) := by
    rw [transformTheta_some]
    have h1 : ¬ ((1.0 : ℝ) = 0) := by norm_num
    have h2 : ¬ ((1.0 : ℝ) < 0) := by norm_num
    simp only [RangeD.exp_eq_expR, RangeD.exp_underflows, RangeD.div_eq_divR,
      RangeD.lit_eq_num, RangeD.divR, if_true, h1, if_false, h2, decide_False]
  refine ⟨hsig, htau, ?_⟩
  rintro ⟨sigma, tau, hs, ht, hpos, hrest⟩
  rw [hsig] at hs
  have h0 : (0 : ℝ) = sigma := by
    simpa using hs
  rw [← h0] at hpos
  exact lt_irrefl 0 hpos

/-- C18 (amended): for every non-NULL `theta` of real numbers with
`-700 <= theta[0] <= 700` and `-700 <= theta[1] <= 700`, and every parameterization,
no step of the transform leaves the range of a double: `kappa > 0`, `sigma > 0`,
`tau > 0`, `sigma * tau = 1` and `tau = exp (-theta[0])` (rounding apart), and the
divisor `sigma` of line 111 is not zero. -/
theorem transformed_quantities_positive_in_range (t0 t1 : ℝ) (p : List Char)
    (h0lo : -700 ≤ t0) (h0hi : t0 ≤ 700) (h1lo : -700 ≤ t1) (h1hi : t1 ≤ 700) :
    ∃ kappa sigma tau : ℝ,
      (transformTheta (some (RangeD.num t0, RangeD.num t1)) p).kappa =
        some (RangeD.num kappa) ∧
      (transformTheta (some (RangeD.num t0, RangeD.num t1)) p).sigma =
        some (RangeD.num sigma) ∧
      (transformTheta (some (RangeD.num t0, RangeD.num t1)) p).tau =
        some (RangeD.num tau) ∧
      0 < kappa ∧ 0 < sigma ∧ 0 < tau ∧ sigma * tau = 1 ∧ tau = Real.exp (-t0) ∧
      sigma ≠ 0 := by
  obtain ⟨lk, hlo, hhi, hT⟩ := transformTheta_in_range t0 t1 p h0lo h0hi h1lo h1hi
  have hpos : 0 < Real.exp t0 := Real.exp_pos t0
  refine ⟨Real.exp lk, Real.exp t0, 1 / Real.exp t0, by rw [hT], by rw [hT], by rw [hT],
    Real.exp_pos _, hpos, by positivity, ?_, ?_, ne_of_gt hpos⟩
  · field_simp
  · rw [Real.exp_neg, one_div]

/-- Witness of C18 (amended): `theta = [0, 0]`, within the bounds, under "matern". -/
theorem transformed_quantities_positive_in_range_witness :
    (-700 : ℝ) ≤ 0 ∧ (0 : ℝ) ≤ 700 ∧
    ∃ kappa sigma tau : ℝ,
      (transformTheta (some (RangeD.num 0, RangeD.num 0)) "matern".toList).kappa =
        some (RangeD.num kappa) ∧
      (transformTheta (some (RangeD.num 0, RangeD.num 0)) "matern".toList).sigma =
        some (RangeD.num sigma) ∧
      (transformTheta (some (RangeD.num 0, RangeD.num 0)) "matern".toList).tau =
        some (RangeD.num tau) ∧
      0 < kappa ∧ 0 < sigma ∧ 0 < tau ∧ sigma * tau = 1 := by
  have hlo : (-700 : ℝ) ≤ 0 := by norm_num
  have hhi : (0 : ℝ) ≤ 700 := by norm_num
  obtain ⟨kappa, sigma, tau, hk, hs, ht, pk, ps, pt, hprod, hrest⟩ :=
    transformed_quantities_positive_in_range 0 0 "matern".toList hlo hhi hlo hhi
  exact ⟨hlo, hhi, kappa, sigma, tau, hk, hs, ht, pk, ps, pt, hprod⟩

end GpGraphAlpha2
